import Mathlib

/-!
# Verification of the lndhub.go Payment & Ledger Engine

Shallow embedding of `lib/service/invoices.go`: the invoice data model, the
double-entry transaction entries, the payment orchestration (`PayInvoice`,
`SendInternalPayment`, `SendPaymentSync`, `HandleFailedPayment`,
`HandleSuccessfulPayment`), incoming-invoice creation (`AddIncomingInvoice`)
and preimage generation (`makePreimageHex`).

Modelling conventions:
* The relational store is an explicit `DB` value threaded through every
  operation.  The store itself is an external collaborator assumed reliable
  (spec §1); what is modelled of it is exactly what the core depends on:
  the balance CHECK constraint on inserts of transaction entries (spec §6),
  not-found results of lookups, and whole-row updates keyed by id.
* The Lightning node (`LndClient`) is an oracle in the environment `Env`:
  each call is a function from the request to `Except Err result`, so both
  transport failures and in-payload failures are expressible.  Every call
  made to the node is also logged in the state (`St.lndCalls`) so that
  "no network call was made" is a provable statement.
* Go byte slices are `List Nat` (each element a byte value), Go strings are
  `String`, Go `int64` is `Int`, and the `sha256` function from the standard
  library is an abstract parameter `Env.sha` (only its plumbing is claimed).
* The non-cryptographic random source behind `makePreimageHex` is a function
  `Fin 32 → Fin 16` choosing, for each of the 32 bytes, an index into the
  charset `"0123456789abcdef"` (the `random.Hex` constant of gommon).
-/

namespace Lndhub

/-- The four ledger account kinds (`common.AccountType*`). -/
inductive AccountType where
  | current
  | incoming
  | outgoing
  | fees
deriving DecidableEq, Repr

/-- Invoice direction (`common.InvoiceType*`). -/
inductive InvoiceType where
  | incoming
  | outgoing
deriving DecidableEq, Repr

/-- Invoice lifecycle state (`common.InvoiceState*`). -/
inductive InvoiceState where
  | initialized
  | open
  | settled
  | error
deriving DecidableEq, Repr

/-- Errors surfaced by the core.  The Go code works with untyped `error`
values; the constructors below name the distinct failure sources that the
code paths in `invoices.go` can produce. -/
inductive Err where
  /-- The store's balance constraint rejected a transaction-entry insert. -/
  | insufficientBalance
  /-- A row lookup (`Scan` with `Limit 1`) found no row. -/
  | notFound
  /-- `hex.DecodeString` failed on malformed input. -/
  | decodeError
  /-- The gateway's response carried a payment error or no preimage
  (`errors.New(sendPaymentResult.GetPaymentError())`). -/
  | paymentFailed (msg : String)
  /-- An error returned by the Lightning node call itself. -/
  | gatewayError (msg : String)
deriving DecidableEq, Repr

/-- The error message stored on a failed invoice
(`failedPaymentError.Error()` in Go). -/
def Err.message : Err → String
  | .insufficientBalance => "insufficient balance"
  | .notFound => "sql: no rows in result set"
  | .decodeError => "encoding hex: invalid byte"
  | .paymentFailed msg => msg
  | .gatewayError msg => msg

/-- An account id.  `AccountFor` (spec §4.1) guarantees exactly one account
per (user, kind) pair, so the id is modelled as that pair. -/
abbrev AccountID := Int × AccountType

/-- A ledger account row (`models.Account`). -/
structure Account where
  id : AccountID
  userID : Int
  typ : AccountType
deriving DecidableEq, Repr

/-- One double-entry ledger record (`models.TransactionEntry`).  `id` is
assigned by the store on insert; `parentID` links a fee entry to the
principal entry it rides on. -/
structure TransactionEntry where
  id : Int := 0
  userID : Int := 0
  invoiceID : Int := 0
  creditAccountID : AccountID := (0, .current)
  debitAccountID : AccountID := (0, .current)
  amount : Int := 0
  parentID : Option Int := none
deriving DecidableEq, Repr

/-- An invoice row (`models.Invoice`).  Defaults are the Go zero values. -/
structure Invoice where
  id : Int := 0
  typ : InvoiceType := .incoming
  userID : Int := 0
  paymentRequest : String := ""
  rHash : String := ""
  preimage : String := ""
  amount : Int := 0
  fee : Int := 0
  memo : String := ""
  descriptionHash : String := ""
  destinationPubkeyHex : String := ""
  keysend : Bool := false
  destinationCustomRecords : List (Nat × List Nat) := []
  addIndex : Nat := 0
  state : InvoiceState := .initialized
  internal : Bool := false
  expiresAt : Option Nat := none
  settledAt : Option Nat := none
  errorMessage : String := ""
deriving DecidableEq, Repr

/-- A payment route (`Route` in `invoices.go`). -/
structure Route where
  totalAmt : Int
  totalFees : Int
deriving DecidableEq, Repr

/-- The response shape of a payment (`SendPaymentResponse`). -/
structure SendPaymentResponse where
  paymentPreimage : List Nat := []
  paymentPreimageStr : String := ""
  paymentError : String := ""
  paymentHash : List Nat := []
  paymentHashStr : String := ""
  paymentRoute : Option Route := none
  transactionEntry : Option TransactionEntry := none
  invoice : Option Invoice := none
deriving DecidableEq, Repr

/-- The request sent to the node (`lnrpc.SendRequest`, the fields used). -/
structure SendRequest where
  dest : List Nat := []
  amt : Int := 0
  paymentRequest : String := ""
  paymentHash : List Nat := []
  feeLimitFixed : Int := 0
  destFeaturesTlvOnion : Bool := false
  destCustomRecords : List (Nat × List Nat) := []
deriving DecidableEq, Repr

/-- The node's reply to `SendPaymentSync` (`lnrpc.SendResponse`, the fields
used).  A nil preimage slice is `none`. -/
structure SendPaymentResult where
  paymentError : String := ""
  paymentPreimage : Option (List Nat) := none
  paymentHash : List Nat := []
  routeTotalAmt : Int := 0
  routeTotalFees : Int := 0
deriving DecidableEq, Repr

/-- The invoice registered with the node (`lnrpc.Invoice`, fields used). -/
structure LnInvoice where
  memo : String := ""
  descriptionHash : List Nat := []
  value : Int := 0
  rPreimage : List Nat := []
  expiry : Int := 0
deriving DecidableEq, Repr

/-- The node's reply to `AddInvoice` (`lnrpc.AddInvoiceResponse`). -/
structure AddInvoiceResult where
  paymentRequest : String := ""
  rHash : List Nat := []
  addIndex : Nat := 0
deriving DecidableEq, Repr

/-- One call made to the Lightning node, as logged in the state. -/
inductive LndCall where
  | sendPayment (req : SendRequest)
  | addInvoice (inv : LnInvoice)
deriving DecidableEq, Repr

/-- The store's contents: invoice rows, transaction-entry rows, and the
id sequences the store assigns from. -/
structure DB where
  invoices : List Invoice := []
  entries : List TransactionEntry := []
  nextEntryId : Int := 1
  nextInvoiceId : Int := 1
deriving DecidableEq, Repr

/-- The full mutable state of a run: the store plus the log of calls made
to the Lightning node. -/
structure St where
  db : DB := {}
  lndCalls : List LndCall := []
deriving DecidableEq, Repr

/-- The environment of a run: the service's own identity, the clock, the
hash function, the random source, and the Lightning node oracle. -/
structure Env where
  identityPubkey : String
  now : Nat
  sha : List Nat → List Nat
  preimageRand : Fin 32 → Fin 16
  lndSendPayment : SendRequest → Except Err SendPaymentResult
  lndAddInvoice : LnInvoice → Except Err AddInvoiceResult

/-! ## Hex encoding and decoding (`encoding/hex`) -/

/-- The hex digit character for a value `0..15` (lower case, as
`hex.EncodeToString` produces). -/
def hexDigitChar (d : Nat) : Char :=
  if d < 10 then Char.ofNat (48 + d) else Char.ofNat (87 + d)

/-- The two hex characters encoding one byte. -/
def hexEncodeByte (b : Nat) : List Char :=
  [hexDigitChar (b / 16), hexDigitChar (b % 16)]

/-- `hex.EncodeToString`: each byte becomes two lower-case hex chars. -/
def hexEncode (bs : List Nat) : String :=
  String.mk (bs.flatMap hexEncodeByte)

/-- The value of one hex character, accepting the digits, lower- and
upper-case letters exactly as Go's `encoding/hex` does. -/
def hexCharVal (c : Char) : Option Nat :=
  let n := c.toNat
  if 48 ≤ n ∧ n ≤ 57 then some (n - 48)
  else if 97 ≤ n ∧ n ≤ 102 then some (n - 87)
  else if 65 ≤ n ∧ n ≤ 70 then some (n - 55)
  else none

/-- Strict hex decoding of a character list: succeeds only on an
even-length, all-hex input. -/
def hexDecodeList : List Char → Option (List Nat)
  | [] => some []
  | c1 :: c2 :: rest =>
    match hexCharVal c1, hexCharVal c2, hexDecodeList rest with
    | some h, some l, some t => some ((16 * h + l) :: t)
    | _, _, _ => none
  | _ :: [] => none

/-- `hex.DecodeString` with its error checked: `none` on malformed input. -/
def hexDecodeStrict (s : String) : Option (List Nat) :=
  hexDecodeList s.data

/-- Hex decoding with the error discarded (`preimage, _ :=
hex.DecodeString(...)` in Go): the bytes decoded before the first
malformed position. -/
def hexDecodePartialList : List Char → List Nat
  | [] => []
  | c1 :: c2 :: rest =>
    match hexCharVal c1, hexCharVal c2 with
    | some h, some l => (16 * h + l) :: hexDecodePartialList rest
    | _, _ => []
  | _ :: [] => []

/-- `hex.DecodeString` with the error ignored, as the call sites in
`SendInternalPayment` do. -/
def hexDecodeGo (s : String) : List Nat :=
  hexDecodePartialList s.data

/-! ## Store operations -/

/-- The signed contribution of one entry to one account's balance. -/
def entryDelta (a : AccountID) (e : TransactionEntry) : Int :=
  (if e.creditAccountID = a then e.amount else 0)
    - (if e.debitAccountID = a then e.amount else 0)

/-- The signed balance an entry list gives an account. -/
def balanceOf (entries : List TransactionEntry) (a : AccountID) : Int :=
  (entries.map (entryDelta a)).sum

/-- The signed balance of an account: total credited minus total debited
(spec §3, TransactionEntry). -/
def accountBalance (db : DB) (a : AccountID) : Int :=
  balanceOf db.entries a

/-- Modelled from the spec: §4.1 Account Resolver.  `AccountFor` is not in
the sources under verification (only its call sites are); per the spec it
returns the unique account of one (user, kind) pair, creating it on first
use.  Since accounts are immutable and unique per pair, the resolver is a
pure function and the account id is the pair itself. -/
def accountFor (typ : AccountType) (userId : Int) : Account :=
  { id := (userId, typ), userID := userId, typ := typ }

/-- Modelled from the spec: §4.2 Ledger `BalanceOf` / `CurrentUserBalance`
(not in the sources under verification): the user's balance is the signed
sum over entries touching their `Current` account. -/
def currentUserBalance (db : DB) (userId : Int) : Int :=
  accountBalance db (accountFor .current userId).id

/-- Insert of one transaction entry.  The store assigns the id; the
balance CHECK constraint (spec §6: no `Current` account balance may go
negative as a result of an insert) rejects the row, leaving the store
unchanged, with `insufficientBalance`. -/
def insertEntry (db : DB) (e : TransactionEntry) :
    Except Err (TransactionEntry × DB) :=
  let e1 := { e with id := db.nextEntryId }
  let db1 := { db with
    entries := db.entries ++ [e1], nextEntryId := db.nextEntryId + 1 }
  if (e1.debitAccountID.2 = AccountType.current
        ∧ accountBalance db1 e1.debitAccountID < 0)
      ∨ (e1.creditAccountID.2 = AccountType.current
        ∧ accountBalance db1 e1.creditAccountID < 0) then
    .error .insufficientBalance
  else
    .ok (e1, db1)

/-- Insert of one invoice row; the store assigns the id. -/
def insertInvoice (db : DB) (i : Invoice) : Invoice × DB :=
  let i1 := { i with id := db.nextInvoiceId }
  (i1, { db with
    invoices := db.invoices ++ [i1], nextInvoiceId := db.nextInvoiceId + 1 })

/-- Whole-row update keyed by primary key (`NewUpdate().Model(...).WherePK()`):
every row with the invoice's id is replaced by the given value; absent rows
are left alone. -/
def updateInvoice (db : DB) (i : Invoice) : DB :=
  { db with invoices := db.invoices.map fun r => if r.id = i.id then i else r }

/-- Whether a row matches `SendInternalPayment`'s lookup:
`type = incoming AND payment_request = ? AND state = open`. -/
def matchesOpenIncoming (pr : String) (i : Invoice) : Bool :=
  i.typ = InvoiceType.incoming ∧ i.paymentRequest = pr
    ∧ i.state = InvoiceState.open

/-- The `Limit 1` lookup of a still-open incoming invoice with the given
payment request. -/
def findOpenIncoming (db : DB) (pr : String) : Option Invoice :=
  db.invoices.find? (matchesOpenIncoming pr)

/-- The entries belonging to one invoice. -/
def entriesFor (db : DB) (invoiceId : Int) : List TransactionEntry :=
  db.entries.filter fun e => e.invoiceID = invoiceId

/-- The state of the invoice row with a given id (first such row). -/
def invoiceRowState (db : DB) (invoiceId : Int) : Option InvoiceState :=
  (db.invoices.find? fun r => r.id = invoiceId).map Invoice.state

/-! ## The operations of `invoices.go` -/

/-- The keysend TLV custom-record key (`KEYSEND_CUSTOM_RECORD`).  The
constant is declared outside the sources under verification; its exact
value is immaterial to every property below. -/
def KEYSEND_CUSTOM_RECORD : Nat := 5482373484

/-- Map store for the destination custom records
(`invoice.DestinationCustomRecords[k] = v`). -/
def setRecord (m : List (Nat × List Nat)) (k : Nat) (v : List Nat) :
    List (Nat × List Nat) :=
  (m.filter fun p => p.1 ≠ k) ++ [(k, v)]

/-- Lookup in the destination custom records. -/
def getRecord (m : List (Nat × List Nat)) (k : Nat) : Option (List Nat) :=
  (m.find? fun p => p.1 = k).map Prod.snd

/-- The charset each preimage byte is drawn from: the `random.Hex`
constant of gommon, `"0123456789abcdef"`. -/
def hexBytes : String := "0123456789abcdef"

/-- `makePreimageHex`: 32 bytes, each the ASCII code of a character of
`hexBytes` picked by the random source. -/
def makePreimageHex (rand : Fin 32 → Fin 16) : List Nat :=
  (List.finRange 32).map fun i => (hexBytes.data.getD (rand i).val '0').toNat

/-- The fee read `paymentResponse.PaymentRoute.TotalFees` (the route is
always set on a successful response; the source dereferences it
unconditionally). -/
def responseFees (r : SendPaymentResponse) : Int :=
  match r.paymentRoute with
  | some route => route.totalFees
  | none => 0

/-! ## Named intermediate values

Abbreviations for values the operations construct internally, used to
state the theorems below; each mirrors the corresponding literal in the
source. -/

/-- The provisional (principal) entry `PayInvoice` builds:
credit the payer's `Outgoing`, debit their `Current`, over the invoice
amount. -/
def payInvoiceEntry (inv : Invoice) : TransactionEntry :=
  { userID := inv.userID, invoiceID := inv.id,
    creditAccountID := (accountFor .outgoing inv.userID).id,
    debitAccountID := (accountFor .current inv.userID).id,
    amount := inv.amount }

/-- The provisional entry as the store records it. -/
def gateEntry (inv : Invoice) (db : DB) : TransactionEntry :=
  { payInvoiceEntry inv with id := db.nextEntryId }

/-- The store right after the provisional insert succeeded. -/
def gateDB (inv : Invoice) (db : DB) : DB :=
  { db with entries := db.entries ++ [gateEntry inv db],
            nextEntryId := db.nextEntryId + 1 }

/-- The entry `SendInternalPayment` builds for the recipient: credit
their `Current`, debit their `Incoming`, over the payer's invoice
amount. -/
def recipientEntry (inv B : Invoice) : TransactionEntry :=
  { userID := B.userID, invoiceID := B.id,
    creditAccountID := (accountFor .current B.userID).id,
    debitAccountID := (accountFor .incoming B.userID).id,
    amount := inv.amount }

/-- The store right after the recipient entry was inserted. -/
def recipDB (inv B : Invoice) (db : DB) : DB :=
  { db with
    entries := db.entries
      ++ [{ recipientEntry inv B with id := db.nextEntryId }],
    nextEntryId := db.nextEntryId + 1 }

/-- The reversing entry `HandleFailedPayment` builds: credit and debit
swapped relative to the entry to revert. -/
def reversalEntry (inv : Invoice) (entryToRevert : TransactionEntry) :
    TransactionEntry :=
  { userID := inv.userID, invoiceID := inv.id,
    creditAccountID := entryToRevert.debitAccountID,
    debitAccountID := entryToRevert.creditAccountID,
    amount := inv.amount }

/-- The store after the provisional insert and its reversal. -/
def revertedDB (inv : Invoice) (db : DB) : DB :=
  { gateDB inv db with
    entries := (gateDB inv db).entries
      ++ [{ reversalEntry inv (gateEntry inv db) with
            id := (gateDB inv db).nextEntryId }],
    nextEntryId := (gateDB inv db).nextEntryId + 1 }

/-- The fee entry `HandleSuccessfulPayment` builds: credit the payer's
`Fees`, debit the same account the principal entry debited, amount the
invoice's fee, linked to the principal entry. -/
def feeEntry (inv : Invoice) (parentEntry : TransactionEntry) :
    TransactionEntry :=
  { userID := inv.userID, invoiceID := inv.id,
    creditAccountID := (accountFor .fees inv.userID).id,
    debitAccountID := parentEntry.debitAccountID,
    amount := inv.fee, parentID := some parentEntry.id }

/-- The recipient's invoice as `SendInternalPayment` rewrites it:
internal, settled, with a settlement timestamp. -/
def settledIncoming (env : Env) (B : Invoice) : Invoice :=
  { B with
    internal := true, state := InvoiceState.settled,
    settledAt := some env.now }

/-- The response `SendInternalPayment` synthesizes: the recipient
invoice's already-known preimage and a zero-fee route. -/
def internalResponse (inv B : Invoice) : SendPaymentResponse :=
  { paymentPreimageStr := B.preimage,
    paymentPreimage := hexDecodeGo B.preimage,
    invoice := some inv,
    paymentHashStr := inv.rHash,
    paymentHash := hexDecodeGo inv.rHash,
    paymentRoute := some { totalAmt := inv.amount, totalFees := 0 } }

/-- The response `SendPaymentSync` builds from a successful node reply. -/
def externalResponse (res : SendPaymentResult) : SendPaymentResponse :=
  { paymentPreimage := res.paymentPreimage.getD [],
    paymentPreimageStr := hexEncode (res.paymentPreimage.getD []),
    paymentHash := res.paymentHash,
    paymentHashStr := hexEncode res.paymentHash,
    paymentRoute := some { totalAmt := res.routeTotalAmt,
                           totalFees := res.routeTotalFees } }

/-- The routed response with the principal entry attached
(`paymentResponse.TransactionEntry = &entry`). -/
def withEntry (rp : SendPaymentResponse) (e : TransactionEntry) :
    SendPaymentResponse :=
  { rp with transactionEntry := some e }

/-- The invoice with preimage and fee stamped from the routed response. -/
def stampedInvoice (inv : Invoice) (rp : SendPaymentResponse) : Invoice :=
  { inv with preimage := rp.paymentPreimageStr, fee := responseFees rp }

/-- The invoice as `HandleSuccessfulPayment` persists it. -/
def settledInvoice (env : Env) (inv : Invoice) : Invoice :=
  { inv with state := InvoiceState.settled, settledAt := some env.now }

/-- The invoice as `HandleFailedPayment` persists it. -/
def erroredInvoice (inv : Invoice) (e : Err) : Invoice :=
  { inv with state := InvoiceState.error, errorMessage := e.message }

/-- The `Initialized` row `AddIncomingInvoice` persists before the node
call: 24-hour expiry, no payment request or preimage yet. -/
def initialIncomingRow (env : Env) (u amt : Int) (memo dh : String)
    (db : DB) : Invoice :=
  { id := db.nextInvoiceId, typ := InvoiceType.incoming, userID := u,
    amount := amt, memo := memo, descriptionHash := dh,
    state := InvoiceState.initialized,
    expiresAt := some (env.now + 24 * 60 * 60) }

/-- The invoice `AddIncomingInvoice` registers with the node. -/
def incomingLnInvoice (env : Env) (amt : Int) (memo : String)
    (dhBytes : List Nat) : LnInvoice :=
  { memo := memo, descriptionHash := dhBytes, value := amt,
    rPreimage := makePreimageHex env.preimageRand,
    expiry := ((24 * 60 * 60 : Nat) : Int) }

/-- The `Open` row after the node acknowledged the invoice: payment
request, payment hash, hex-encoded preimage and add-index copied back,
destination set to the service's own key. -/
def openIncomingRow (env : Env) (u amt : Int) (memo dh : String) (db : DB)
    (r : AddInvoiceResult) : Invoice :=
  { initialIncomingRow env u amt memo dh db with
    paymentRequest := r.paymentRequest, rHash := hexEncode r.rHash,
    preimage := hexEncode (makePreimageHex env.preimageRand),
    addIndex := r.addIndex, destinationPubkeyHex := env.identityPubkey,
    state := InvoiceState.open }

/-- `createLnRpcSendRequest`: builds the node request.  A plain bolt11
invoice passes the payment request, amount and the fixed 300-sat fee
ceiling; a keysend payment generates a fresh preimage, hashes it into the
payment hash, decodes the destination key (failing on malformed hex) and
attaches the preimage as a custom record together with the TLV-onion
feature bit. -/
def createLnRpcSendRequest (env : Env) (invoice : Invoice) :
    Except Err SendRequest :=
  let feeLimitFixed : Int := 300
  if !invoice.keysend then
    .ok { paymentRequest := invoice.paymentRequest, amt := invoice.amount,
          feeLimitFixed := feeLimitFixed }
  else
    let preImage := makePreimageHex env.preimageRand
    let pHash := env.sha preImage
    match hexDecodeStrict invoice.destinationPubkeyHex with
    | none => .error .decodeError
    | some destBytes =>
      .ok { dest := destBytes, amt := invoice.amount, paymentHash := pHash,
            feeLimitFixed := feeLimitFixed, destFeaturesTlvOnion := true,
            destCustomRecords :=
              setRecord invoice.destinationCustomRecords
                KEYSEND_CUSTOM_RECORD preImage }

/-- `SendPaymentSync`: builds the request, submits it to the node (the
call is logged), and treats a non-empty payment-error field or an absent
preimage in the reply as a full failure even when the call itself
succeeded.  On success the response carries preimage, payment hash (each
also hex-encoded) and the route. -/
def SendPaymentSync (env : Env) (invoice : Invoice) (st : St) :
    Except Err SendPaymentResponse × St :=
  match createLnRpcSendRequest env invoice with
  | .error e => (.error e, st)
  | .ok sendPaymentRequest =>
    let st1 := { st with
      lndCalls := st.lndCalls ++ [LndCall.sendPayment sendPaymentRequest] }
    match env.lndSendPayment sendPaymentRequest with
    | .error e => (.error e, st1)
    | .ok sendPaymentResult =>
      if sendPaymentResult.paymentError ≠ ""
          ∨ sendPaymentResult.paymentPreimage = none then
        (.error (.paymentFailed sendPaymentResult.paymentError), st1)
      else
        (.ok (externalResponse sendPaymentResult), st1)

/-- `SendInternalPayment`: looks up the still-open incoming invoice with
the payer's payment request (failing with `notFound` when none exists or
it is already settled), credits the recipient's `Current` account from
their `Incoming` account, synthesizes a response carrying the
already-known preimage and a zero-fee route, and marks the recipient's
invoice internal, settled, with a settlement timestamp.  No node call is
made. -/
def SendInternalPayment (env : Env) (invoice : Invoice) (st : St) :
    Except Err SendPaymentResponse × St :=
  match findOpenIncoming st.db invoice.paymentRequest with
  | none => (.error .notFound, st)
  | some incomingInvoice =>
    match insertEntry st.db (recipientEntry invoice incomingInvoice) with
    | .error e => (.error e, st)
    | .ok (_, db1) =>
      (.ok (internalResponse invoice incomingInvoice),
       { st with db := updateInvoice db1 (settledIncoming env incomingInvoice) })

/-- `HandleFailedPayment`: inserts the reversing entry (credit and debit
swapped relative to the entry to revert) and sets the invoice to `Error`
with the failure's message.  Returns the first persistence error, if
any. -/
def HandleFailedPayment (invoice : Invoice) (entryToRevert : TransactionEntry)
    (failedPaymentError : Err) (st : St) : Option Err × St :=
  match insertEntry st.db (reversalEntry invoice entryToRevert) with
  | .error e => (some e, st)
  | .ok (_, db1) =>
    (none, { st with
      db := updateInvoice db1 (erroredInvoice invoice failedPaymentError) })

/-- `HandleSuccessfulPayment`: marks the invoice settled with a
settlement timestamp, then inserts the fee entry crediting the payer's
`Fees` account, debiting the same account the principal entry debited,
amount the invoice's fee, linked to the principal entry via `parentID`.
The final balance read is observational only (a log line on a negative
balance) and does not alter the outcome. -/
def HandleSuccessfulPayment (env : Env) (invoice : Invoice)
    (parentEntry : TransactionEntry) (st : St) : Option Err × St :=
  let db1 := updateInvoice st.db (settledInvoice env invoice)
  match insertEntry db1 (feeEntry invoice parentEntry) with
  | .error e => (some e, { st with db := db1 })
  | .ok (_, db2) =>
    let _ := currentUserBalance db2 invoice.userID
    (none, { st with db := db2 })

/-- The tail of `PayInvoice` after the routing call returned: a routing
failure runs failure reconciliation (its own error is discarded, as at
the call sites in Go) and yields `(nil, err)`; a routing success stamps
the entry, preimage and fee and runs success reconciliation, yielding the
response together with whatever error reconciliation returned. -/
def settleRouted (env : Env) (invoice : Invoice) (entry : TransactionEntry) :
    Except Err SendPaymentResponse × St →
      (Option SendPaymentResponse × Option Err) × St
  | (.error e, st2) => ((none, some e), (HandleFailedPayment invoice entry e st2).2)
  | (.ok resp0, st2) =>
    let paymentResponse := withEntry resp0 entry
    let r := HandleSuccessfulPayment env
      (stampedInvoice invoice paymentResponse) entry st2
    ((some paymentResponse, r.1), r.2)

/-- `PayInvoice`: resolves the payer's `Current` (debit) and `Outgoing`
(credit) accounts, inserts the provisional entry (rejected by the balance
constraint when the payer cannot cover the amount — the whole operation
then stops before any routing), routes internally when the destination
public key is the service's own identity key and externally otherwise,
and reconciles the outcome.  The returned pair mirrors Go's
`(*SendPaymentResponse, error)`. -/
def PayInvoice (env : Env) (invoice : Invoice) (st : St) :
    (Option SendPaymentResponse × Option Err) × St :=
  match insertEntry st.db (payInvoiceEntry invoice) with
  | .error e => ((none, some e), st)
  | .ok (entry, db1) =>
    let st1 := { st with db := db1 }
    settleRouted env invoice entry
      (if env.identityPubkey = invoice.destinationPubkeyHex then
        SendInternalPayment env invoice st1
      else
        SendPaymentSync env invoice st1)

/-- `AddIncomingInvoice`: generates a preimage, persists an `Initialized`
invoice with a 24-hour expiry *before* contacting the node, then asks the
node to register the invoice (the call is logged); on success copies back
the payment request, payment hash, hex-encoded preimage and add-index,
sets the destination to the service's own key and the state to `Open`.
A node failure propagates with the row left `Initialized`. -/
def AddIncomingInvoice (env : Env) (userID : Int) (amount : Int)
    (memo descriptionHashStr : String) (st : St) : Except Err Invoice × St :=
  let preimage := makePreimageHex env.preimageRand
  let expirySeconds : Nat := 24 * 60 * 60
  let invoice0 : Invoice :=
    { typ := InvoiceType.incoming, userID := userID, amount := amount,
      memo := memo, descriptionHash := descriptionHashStr,
      state := InvoiceState.initialized,
      expiresAt := some (env.now + expirySeconds) }
  let (invoice1, db1) := insertInvoice st.db invoice0
  let st1 := { st with db := db1 }
  match hexDecodeStrict descriptionHashStr with
  | none => (.error .decodeError, st1)
  | some descriptionHash =>
    let lnInvoice : LnInvoice :=
      { memo := memo, descriptionHash := descriptionHash, value := amount,
        rPreimage := preimage, expiry := (expirySeconds : Int) }
    let st2 := { st1 with
      lndCalls := st1.lndCalls ++ [LndCall.addInvoice lnInvoice] }
    match env.lndAddInvoice lnInvoice with
    | .error e => (.error e, st2)
    | .ok lnInvoiceResult =>
      let invoice2 := { invoice1 with
        paymentRequest := lnInvoiceResult.paymentRequest,
        rHash := hexEncode lnInvoiceResult.rHash,
        preimage := hexEncode preimage,
        addIndex := lnInvoiceResult.addIndex,
        destinationPubkeyHex := env.identityPubkey,
        state := InvoiceState.open }
      (.ok invoice2, { st2 with db := updateInvoice st2.db invoice2 })

/-! ## Concrete fixtures

A small service with two users: user 1 funded with 1000 sats on their
`Current` account, user 2 owning an open incoming invoice over 500 sats,
and user 1's outgoing invoice for the same payment request, destined to
the service's own node.  Used to instantiate the theorems below. -/

/-- The node oracle used by the fixtures: payments fail at transport,
invoice registration succeeds. -/
def envX : Env :=
  { identityPubkey := "nodeA", now := 1000,
    sha := fun l => [l.length % 256],
    preimageRand := fun _ => 0,
    lndSendPayment := fun _ => .error (.gatewayError "transport down"),
    lndAddInvoice := fun _ =>
      .ok { paymentRequest := "lnbc1x", rHash := [17, 34], addIndex := 5 } }

/-- A successful in-payload node reply. -/
def resOk : SendPaymentResult :=
  { paymentError := "", paymentPreimage := some [1, 2],
    paymentHash := [3, 4], routeTotalAmt := 500, routeTotalFees := 10 }

/-- A failed in-payload node reply (the call itself succeeded). -/
def resPayErr : SendPaymentResult :=
  { paymentError := "no route", paymentPreimage := none,
    paymentHash := [], routeTotalAmt := 0, routeTotalFees := 0 }

/-- A node oracle whose payment call succeeds in-payload. -/
def envOk : Env := { envX with
  identityPubkey := "nodeB", lndSendPayment := fun _ => .ok resOk }

/-- A node oracle whose payment call returns an in-payload error. -/
def envPayErr : Env := { envX with
  identityPubkey := "nodeB", lndSendPayment := fun _ => .ok resPayErr }

/-- The node request for the fixture invoice `invC`. -/
def reqC : SendRequest :=
  { paymentRequest := "lnbcx", amt := 500, feeLimitFixed := 300 }

/-- The funding entry giving user 1 a `Current` balance of 1000. -/
def fund1 : TransactionEntry :=
  { id := 1, userID := 1, invoiceID := 99,
    creditAccountID := (1, .current), debitAccountID := (1, .incoming),
    amount := 1000 }

/-- User 2's open incoming invoice over 500 sats. -/
def invB : Invoice :=
  { id := 10, typ := .incoming, userID := 2, paymentRequest := "lnbc500",
    rHash := "beef", preimage := "aabb", amount := 500, state := .open }

/-- User 1's outgoing invoice paying `invB`'s payment request, destined
to the service's own node. -/
def invA : Invoice :=
  { id := 1, typ := .outgoing, userID := 1, paymentRequest := "lnbc500",
    rHash := "beef", amount := 500, destinationPubkeyHex := "nodeA",
    state := .initialized }

/-- User 3's outgoing invoice over 500 sats; user 3 holds no funds. -/
def invC : Invoice :=
  { id := 3, typ := .outgoing, userID := 3, paymentRequest := "lnbcx",
    amount := 500, destinationPubkeyHex := "nodeB", state := .initialized }

/-- A keysend invoice with a well-formed destination key. -/
def invK : Invoice :=
  { id := 4, typ := .outgoing, userID := 1, amount := 5, keysend := true,
    destinationPubkeyHex := "ab", state := .initialized }

/-- The fixture store. -/
def stX : St :=
  { db := { invoices := [invA, invB, invC], entries := [fund1],
            nextEntryId := 2, nextInvoiceId := 20 } }

/-! ## The claims under test, stated in the spec's words

These two definitions are *not* translations of the source: they
transcribe the spec sentences of claims that turn out to be false on the
code, so that the counterexamples below can state their negation. -/

/-- Claim C1 in the spec's words: `PayInvoice` is all-or-nothing — on
success the invoice row ends `Settled` and exactly a principal entry and
a fee entry (parent-linked) were added for it; on failure the caller gets
no response, the row ends `Error`, exactly two entries (principal and
reversal) were added, and the payer's balance is unchanged. -/
def SpecClaimPayInvoiceAtomic (env : Env) (inv : Invoice) (st : St) : Prop :=
  (((PayInvoice env inv st).1.2 = none →
      (PayInvoice env inv st).1.1 ≠ none
      ∧ invoiceRowState (PayInvoice env inv st).2.db inv.id
          = some InvoiceState.settled
      ∧ ∃ p f, entriesFor (PayInvoice env inv st).2.db inv.id
            = entriesFor st.db inv.id ++ [p, f]
          ∧ f.parentID = some p.id)
    ∧ ((PayInvoice env inv st).1.2 ≠ none →
      (PayInvoice env inv st).1.1 = none
      ∧ invoiceRowState (PayInvoice env inv st).2.db inv.id
          = some InvoiceState.error
      ∧ (∃ p rv, entriesFor (PayInvoice env inv st).2.db inv.id
            = entriesFor st.db inv.id ++ [p, rv]
          ∧ rv.creditAccountID = p.debitAccountID
          ∧ rv.debitAccountID = p.creditAccountID
          ∧ rv.amount = p.amount)
      ∧ currentUserBalance (PayInvoice env inv st).2.db inv.userID
          = currentUserBalance st.db inv.userID))

/-- Claim C7 in the spec's words: every transaction-entry record in the
store carries a strictly positive amount. -/
def SpecClaimEntriesPositive (db : DB) : Prop :=
  ∀ e ∈ db.entries, 0 < e.amount

/-! ## Lemmas about hex encoding -/

theorem hexCharVal_hexDigitChar {d : Nat} (hd : d < 16) :
    hexCharVal (hexDigitChar d) = some d := by
  interval_cases d <;> rfl

theorem hexDecodeList_flatMap_encode {bs : List Nat} (h : ∀ b ∈ bs, b < 256) :
    hexDecodeList (bs.flatMap hexEncodeByte) = some bs := by
  induction bs with
  | nil => rfl
  | cons b bs ih =>
    have hb : b < 256 := h b (List.mem_cons_self b bs)
    have hhi : b / 16 < 16 := Nat.div_lt_of_lt_mul (by omega)
    have hlo : b % 16 < 16 := Nat.mod_lt _ (by omega)
    have hrec := ih fun x hx => h x (List.mem_cons_of_mem b hx)
    have hsum : 16 * (b / 16) + b % 16 = b := Nat.div_add_mod b 16
    have hstep : hexDecodeList
        (hexDigitChar (b / 16) :: hexDigitChar (b % 16) :: bs.flatMap hexEncodeByte)
        = match hexCharVal (hexDigitChar (b / 16)), hexCharVal (hexDigitChar (b % 16)),
            hexDecodeList (bs.flatMap hexEncodeByte) with
          | some h, some l, some t => some ((16 * h + l) :: t)
          | _, _, _ => none := rfl
    show hexDecodeList
        (hexDigitChar (b / 16) :: hexDigitChar (b % 16) :: bs.flatMap hexEncodeByte)
        = some (b :: bs)
    rw [hstep, hexCharVal_hexDigitChar hhi, hexCharVal_hexDigitChar hlo, hrec]
    show some ((16 * (b / 16) + b % 16) :: bs) = some (b :: bs)
    rw [hsum]

theorem hexDecodeStrict_hexEncode {bs : List Nat} (h : ∀ b ∈ bs, b < 256) :
    hexDecodeStrict (hexEncode bs) = some bs := by
  simpa [hexDecodeStrict, hexEncode] using hexDecodeList_flatMap_encode h

theorem hexDecodeGo_hexEncode {bs : List Nat} (h : ∀ b ∈ bs, b < 256) :
    hexDecodeGo (hexEncode bs) = bs := by
  show hexDecodePartialList (bs.flatMap hexEncodeByte) = bs
  induction bs with
  | nil => rfl
  | cons b bs ih =>
    have hb : b < 256 := h b (List.mem_cons_self b bs)
    have hhi : b / 16 < 16 := Nat.div_lt_of_lt_mul (by omega)
    have hlo : b % 16 < 16 := Nat.mod_lt _ (by omega)
    have hrec := ih fun x hx => h x (List.mem_cons_of_mem b hx)
    have hsum : 16 * (b / 16) + b % 16 = b := Nat.div_add_mod b 16
    have hstep : hexDecodePartialList
        (hexDigitChar (b / 16) :: hexDigitChar (b % 16) :: bs.flatMap hexEncodeByte)
        = match hexCharVal (hexDigitChar (b / 16)), hexCharVal (hexDigitChar (b % 16)) with
          | some h, some l => (16 * h + l) :: hexDecodePartialList (bs.flatMap hexEncodeByte)
          | _, _ => [] := rfl
    show hexDecodePartialList
        (hexDigitChar (b / 16) :: hexDigitChar (b % 16) :: bs.flatMap hexEncodeByte)
        = b :: bs
    rw [hstep, hexCharVal_hexDigitChar hhi, hexCharVal_hexDigitChar hlo]
    show (16 * (b / 16) + b % 16) :: hexDecodePartialList (bs.flatMap hexEncodeByte)
        = b :: bs
    rw [hsum, hrec]

/-- Every byte of a generated preimage is the code of a character of the
hex charset (and in particular below 256). -/
theorem makePreimageHex_mem {rand : Fin 32 → Fin 16} {b : Nat}
    (hb : b ∈ makePreimageHex rand) : b ∈ hexBytes.data.map Char.toNat := by
  unfold makePreimageHex at hb
  obtain ⟨i, -, rfl⟩ := List.mem_map.mp hb
  have : ∀ k : Fin 16, (hexBytes.data.getD k.val '0').toNat
      ∈ hexBytes.data.map Char.toNat := by decide
  exact this (rand i)

theorem makePreimageHex_lt {rand : Fin 32 → Fin 16} {b : Nat}
    (hb : b ∈ makePreimageHex rand) : b < 256 := by
  have h := makePreimageHex_mem hb
  have : ∀ x ∈ hexBytes.data.map Char.toNat, x < 256 := by decide
  exact this b h

theorem makePreimageHex_length (rand : Fin 32 → Fin 16) :
    (makePreimageHex rand).length = 32 := by
  simp [makePreimageHex]

/-! ## Lemmas about the store operations -/

theorem balanceOf_append (l1 l2 : List TransactionEntry) (a : AccountID) :
    balanceOf (l1 ++ l2) a = balanceOf l1 a + balanceOf l2 a := by
  simp [balanceOf]

theorem balanceOf_singleton (e : TransactionEntry) (a : AccountID) :
    balanceOf [e] a = entryDelta a e := by
  simp [balanceOf]

theorem balanceOf_cons (e : TransactionEntry) (l : List TransactionEntry)
    (a : AccountID) :
    balanceOf (e :: l) a = entryDelta a e + balanceOf l a := by
  simp [balanceOf]

theorem balanceOf_nil (a : AccountID) : balanceOf [] a = 0 := by
  simp [balanceOf]

/-- Characterization of a successful insert. -/
theorem insertEntry_ok_elim {db : DB} {e : TransactionEntry}
    {x : TransactionEntry × DB} (h : insertEntry db e = .ok x) :
    x = ({ e with id := db.nextEntryId },
      { db with entries := db.entries ++ [{ e with id := db.nextEntryId }],
                nextEntryId := db.nextEntryId + 1 })
    ∧ ¬ ((e.debitAccountID.2 = AccountType.current
          ∧ balanceOf db.entries e.debitAccountID
              + entryDelta e.debitAccountID { e with id := db.nextEntryId } < 0)
        ∨ (e.creditAccountID.2 = AccountType.current
          ∧ balanceOf db.entries e.creditAccountID
              + entryDelta e.creditAccountID { e with id := db.nextEntryId } < 0)) := by
  simp only [insertEntry] at h
  split at h
  · exact absurd h (by simp)
  · next hc =>
    refine ⟨by injection h with h1; exact h1.symm, ?_⟩
    simpa [accountBalance, balanceOf_append, balanceOf_singleton] using hc

/-- Characterization of a rejected insert. -/
theorem insertEntry_error_elim {db : DB} {e : TransactionEntry} {err : Err}
    (h : insertEntry db e = .error err) :
    err = .insufficientBalance
    ∧ ((e.debitAccountID.2 = AccountType.current
          ∧ balanceOf db.entries e.debitAccountID
              + entryDelta e.debitAccountID { e with id := db.nextEntryId } < 0)
        ∨ (e.creditAccountID.2 = AccountType.current
          ∧ balanceOf db.entries e.creditAccountID
              + entryDelta e.creditAccountID { e with id := db.nextEntryId } < 0)) := by
  simp only [insertEntry] at h
  split at h
  · next hc =>
    refine ⟨by injection h with h1; exact h1.symm, ?_⟩
    simpa [accountBalance, balanceOf_append, balanceOf_singleton] using hc
  · exact absurd h (by simp)

/-- A successful insert, introduced. -/
theorem insertEntry_ok_intro {db : DB} {e : TransactionEntry}
    (h : ¬ ((e.debitAccountID.2 = AccountType.current
          ∧ balanceOf db.entries e.debitAccountID
              + entryDelta e.debitAccountID { e with id := db.nextEntryId } < 0)
        ∨ (e.creditAccountID.2 = AccountType.current
          ∧ balanceOf db.entries e.creditAccountID
              + entryDelta e.creditAccountID { e with id := db.nextEntryId } < 0))) :
    insertEntry db e = .ok ({ e with id := db.nextEntryId },
      { db with entries := db.entries ++ [{ e with id := db.nextEntryId }],
                nextEntryId := db.nextEntryId + 1 }) := by
  simp only [insertEntry]
  rw [if_neg]
  simpa [accountBalance, balanceOf_append, balanceOf_singleton] using h

theorem insertEntry_invoices {db : DB} {e : TransactionEntry}
    {x : TransactionEntry} {db1 : DB} (h : insertEntry db e = .ok (x, db1)) :
    db1.invoices = db.invoices := by
  obtain ⟨hpair, -⟩ := insertEntry_ok_elim h
  rw [Prod.mk.injEq] at hpair
  rw [hpair.2]

theorem insertEntry_entries {db : DB} {e : TransactionEntry}
    {x : TransactionEntry} {db1 : DB} (h : insertEntry db e = .ok (x, db1)) :
    db1.entries = db.entries ++ [{ e with id := db.nextEntryId }] := by
  obtain ⟨hpair, -⟩ := insertEntry_ok_elim h
  rw [Prod.mk.injEq] at hpair
  rw [hpair.2]

/-- Mapping a by-id row replacement over a list leaves lookups of other
ids unchanged. -/
theorem find?_map_update_ne (l : List Invoice) (i : Invoice) (J : Int)
    (hJ : J ≠ i.id) :
    (l.map fun r => if r.id = i.id then i else r).find?
        (fun r => decide (r.id = J))
      = l.find? (fun r => decide (r.id = J)) := by
  induction l with
  | nil => rfl
  | cons r rest ih =>
    have hmap : (r :: rest).map (fun r => if r.id = i.id then i else r)
        = (if r.id = i.id then i else r)
          :: rest.map (fun r => if r.id = i.id then i else r) := rfl
    rw [hmap]
    by_cases hr : r.id = i.id
    · have h1 : ¬ (i.id = J) := fun h => hJ h.symm
      have h2 : ¬ (r.id = J) := by rw [hr]; exact h1
      rw [if_pos hr, List.find?_cons_of_neg _ (by simpa using h1), ih,
        List.find?_cons_of_neg _ (by simpa using h2)]
    · by_cases hrJ : r.id = J
      · rw [if_neg hr, List.find?_cons_of_pos _ (by simpa using hrJ),
          List.find?_cons_of_pos _ (by simpa using hrJ)]
      · rw [if_neg hr, List.find?_cons_of_neg _ (by simpa using hrJ), ih,
          List.find?_cons_of_neg _ (by simpa using hrJ)]

theorem invoiceRowState_updateInvoice_ne (db : DB) (i : Invoice) (J : Int)
    (hJ : J ≠ i.id) :
    invoiceRowState (updateInvoice db i) J = invoiceRowState db J := by
  show ((db.invoices.map (fun r => if r.id = i.id then i else r)).find?
      (fun r => decide (r.id = J))).map Invoice.state
    = (db.invoices.find? (fun r => decide (r.id = J))).map Invoice.state
  rw [find?_map_update_ne db.invoices i J hJ]

/-- After a by-id row replacement, the lookup of the replaced id returns
the new value, provided a row with that id existed. -/
theorem find?_map_update_self (l : List Invoice) (i : Invoice)
    (h : ∃ r ∈ l, r.id = i.id) :
    (l.map fun r => if r.id = i.id then i else r).find?
        (fun r => decide (r.id = i.id)) = some i := by
  induction l with
  | nil =>
    obtain ⟨r0, hr0, -⟩ := h
    exact absurd hr0 (List.not_mem_nil r0)
  | cons r rest ih =>
    have hmap : (r :: rest).map (fun r => if r.id = i.id then i else r)
        = (if r.id = i.id then i else r)
          :: rest.map (fun r => if r.id = i.id then i else r) := rfl
    rw [hmap]
    by_cases hr : r.id = i.id
    · rw [if_pos hr, List.find?_cons_of_pos _ (by simp)]
    · obtain ⟨r0, hr0, hid⟩ := h
      rcases List.mem_cons.mp hr0 with h1 | h1
      · exact absurd (h1 ▸ hid) hr
      · rw [if_neg hr, List.find?_cons_of_neg _ (by simpa using hr),
          ih ⟨r0, h1, hid⟩]

theorem invoiceRowState_updateInvoice_self (db : DB) (i : Invoice)
    (h : ∃ r ∈ db.invoices, r.id = i.id) :
    invoiceRowState (updateInvoice db i) i.id = some i.state := by
  show ((db.invoices.map (fun r => if r.id = i.id then i else r)).find?
      (fun r => decide (r.id = i.id))).map Invoice.state = some i.state
  rw [find?_map_update_self db.invoices i h]
  rfl

/-- Row updates preserve the existence of a row with any given id. -/
theorem exists_id_updateInvoice {db : DB} {i : Invoice} {J : Int}
    (h : ∃ r ∈ db.invoices, r.id = J) :
    ∃ r ∈ (updateInvoice db i).invoices, r.id = J := by
  obtain ⟨r0, hr0, hid⟩ := h
  by_cases hcase : r0.id = i.id
  · exact ⟨i, List.mem_map.mpr ⟨r0, hr0, by simp [hcase]⟩, by rw [← hcase, hid]⟩
  · exact ⟨r0, List.mem_map.mpr ⟨r0, hr0, by simp [hcase]⟩, hid⟩

theorem entriesFor_append (l1 l2 : List TransactionEntry) (J : Int) :
    (l1 ++ l2).filter (fun e => e.invoiceID = J)
      = l1.filter (fun e => e.invoiceID = J)
        ++ l2.filter (fun e => e.invoiceID = J) := by
  simp [List.filter_append]

theorem getRecord_setRecord (m : List (Nat × List Nat)) (k : Nat)
    (v : List Nat) : getRecord (setRecord m k v) k = some v := by
  unfold getRecord setRecord
  rw [List.find?_append]
  have hnone : (m.filter fun p => p.1 ≠ k).find? (fun p => p.1 = k) = none := by
    rw [List.find?_eq_none]
    intro p hp
    have := (List.mem_filter.mp hp).2
    simpa using this
  simp [hnone]

/-- A rejected insert, introduced. -/
theorem insertEntry_error_intro {db : DB} {e : TransactionEntry}
    (h : (e.debitAccountID.2 = AccountType.current
          ∧ balanceOf db.entries e.debitAccountID
              + entryDelta e.debitAccountID { e with id := db.nextEntryId } < 0)
        ∨ (e.creditAccountID.2 = AccountType.current
          ∧ balanceOf db.entries e.creditAccountID
              + entryDelta e.creditAccountID { e with id := db.nextEntryId } < 0)) :
    insertEntry db e = .error .insufficientBalance := by
  simp only [insertEntry]
  rw [if_pos]
  simpa [accountBalance, balanceOf_append, balanceOf_singleton] using h

theorem getLast?_concat_eq {α : Type} (l : List α) (a : α) :
    (l ++ [a]).getLast? = some a := by
  rw [List.getLast?_append_cons]
  rfl

theorem getLast?_map_update_concat (l : List Invoice) (i1 i2 : Invoice)
    (J : Int) (h : i1.id = J) :
    ((l ++ [i1]).map (fun r => if r.id = J then i2 else r)).getLast?
      = some i2 := by
  rw [List.map_append]
  have h1 : ([i1].map (fun r => if r.id = J then i2 else r)) = [i2] := by
    simp [h]
  rw [h1, getLast?_concat_eq]

/-- The provisional insert of `PayInvoice` is rejected exactly by the
payer's `Current` balance falling short of the amount. -/
theorem payInvoice_gate_error (inv : Invoice) (st : St)
    (hbal : currentUserBalance st.db inv.userID < inv.amount) :
    insertEntry st.db (payInvoiceEntry inv) = .error .insufficientBalance := by
  apply insertEntry_error_intro
  left
  refine ⟨rfl, ?_⟩
  have h1 : entryDelta (payInvoiceEntry inv).debitAccountID
      { payInvoiceEntry inv with id := st.db.nextEntryId } = -inv.amount := by
    simp [entryDelta, payInvoiceEntry, accountFor]
  have h2 : balanceOf st.db.entries (payInvoiceEntry inv).debitAccountID
      = currentUserBalance st.db inv.userID := rfl
  rw [h1, h2]
  omega

/-- The provisional insert of `PayInvoice` succeeds when the payer's
`Current` balance covers the amount. -/
theorem payInvoice_gate_ok (inv : Invoice) (st : St)
    (hbal : inv.amount ≤ currentUserBalance st.db inv.userID) :
    insertEntry st.db (payInvoiceEntry inv)
      = .ok (gateEntry inv st.db, gateDB inv st.db) := by
  have h := @insertEntry_ok_intro st.db (payInvoiceEntry inv) ?_
  · exact h
  · rintro (⟨hd, hlt⟩ | ⟨hc, hlt⟩)
    · have h1 : entryDelta (payInvoiceEntry inv).debitAccountID
          { payInvoiceEntry inv with id := st.db.nextEntryId } = -inv.amount := by
        simp [entryDelta, payInvoiceEntry, accountFor]
      have h2 : balanceOf st.db.entries (payInvoiceEntry inv).debitAccountID
          = currentUserBalance st.db inv.userID := rfl
      rw [h1, h2] at hlt
      omega
    · simp [payInvoiceEntry, accountFor] at hc

theorem SendInternalPayment_lndCalls (env : Env) (inv : Invoice) (st : St) :
    (SendInternalPayment env inv st).2.lndCalls = st.lndCalls := by
  simp only [SendInternalPayment]
  split
  · rfl
  · split
    · rfl
    · rfl

/-- `PayInvoice` after a successful provisional insert: the settlement of
the routed call, of the branch the public-key comparison picks. -/
theorem payInvoice_routed_eq (env : Env) (inv : Invoice) (st : St)
    (hbal : inv.amount ≤ currentUserBalance st.db inv.userID) :
    PayInvoice env inv st
      = settleRouted env inv (gateEntry inv st.db)
          (if env.identityPubkey = inv.destinationPubkeyHex then
            SendInternalPayment env inv { st with db := gateDB inv st.db }
          else
            SendPaymentSync env inv { st with db := gateDB inv st.db }) := by
  have hg := payInvoice_gate_ok inv st hbal
  simp only [PayInvoice]
  rw [hg]

theorem settleRouted_error_eq (env : Env) (inv : Invoice)
    (entry : TransactionEntry) (e : Err) (st2 : St) :
    settleRouted env inv entry (.error e, st2)
      = ((none, some e), (HandleFailedPayment inv entry e st2).2) := rfl

theorem settleRouted_ok_eq (env : Env) (inv : Invoice)
    (entry : TransactionEntry) (rp : SendPaymentResponse) (st2 : St) :
    settleRouted env inv entry (.ok rp, st2)
      = ((some (withEntry rp entry),
          (HandleSuccessfulPayment env
            (stampedInvoice inv (withEntry rp entry)) entry st2).1),
         (HandleSuccessfulPayment env
            (stampedInvoice inv (withEntry rp entry)) entry st2).2) := rfl

theorem HandleFailedPayment_run (inv : Invoice) (et : TransactionEntry)
    (e : Err) (st : St) {rv : TransactionEntry} {db1 : DB}
    (hins : insertEntry st.db (reversalEntry inv et) = .ok (rv, db1)) :
    HandleFailedPayment inv et e st
      = (none, { st with db := updateInvoice db1 (erroredInvoice inv e) }) := by
  simp only [HandleFailedPayment, hins]

theorem HandleSuccessfulPayment_run_ok (env : Env) (inv : Invoice)
    (pe : TransactionEntry) (st : St) {feeE : TransactionEntry} {db2 : DB}
    (hins : insertEntry (updateInvoice st.db (settledInvoice env inv))
        (feeEntry inv pe) = .ok (feeE, db2)) :
    HandleSuccessfulPayment env inv pe st = (none, { st with db := db2 }) := by
  simp only [HandleSuccessfulPayment, hins]

theorem HandleSuccessfulPayment_run_err (env : Env) (inv : Invoice)
    (pe : TransactionEntry) (st : St) {e : Err}
    (hins : insertEntry (updateInvoice st.db (settledInvoice env inv))
        (feeEntry inv pe) = .error e) :
    HandleSuccessfulPayment env inv pe st
      = (some e, { st with db := updateInvoice st.db (settledInvoice env inv) }) := by
  simp only [HandleSuccessfulPayment, hins]

/-- `SendInternalPayment` either fails leaving the state untouched, or
settles the looked-up open incoming invoice. -/
theorem SendInternalPayment_cases (env : Env) (inv : Invoice) (st : St) :
    (∃ e, SendInternalPayment env inv st = (.error e, st))
    ∨ (∃ B x db1, findOpenIncoming st.db inv.paymentRequest = some B
        ∧ insertEntry st.db (recipientEntry inv B) = .ok (x, db1)
        ∧ SendInternalPayment env inv st
            = (.ok (internalResponse inv B),
               { st with db := updateInvoice db1 (settledIncoming env B) })) := by
  cases hfind : findOpenIncoming st.db inv.paymentRequest with
  | none =>
    refine Or.inl ⟨Err.notFound, ?_⟩
    simp only [SendInternalPayment, hfind]
  | some B =>
    cases hins : insertEntry st.db (recipientEntry inv B) with
    | error e =>
      refine Or.inl ⟨e, ?_⟩
      simp only [SendInternalPayment, hfind, hins]
    | ok x =>
      obtain ⟨x1, db1⟩ := x
      refine Or.inr ⟨B, x1, db1, rfl, hins, ?_⟩
      simp only [SendInternalPayment, hfind, hins]

/-- `SendPaymentSync` either fails without touching the store, or returns
the response built from a successful node reply, with the call logged. -/
theorem SendPaymentSync_cases (env : Env) (inv : Invoice) (st : St) :
    (∃ e st2, SendPaymentSync env inv st = (.error e, st2) ∧ st2.db = st.db)
    ∨ (∃ req res, createLnRpcSendRequest env inv = .ok req
        ∧ env.lndSendPayment req = .ok res
        ∧ SendPaymentSync env inv st
            = (.ok (externalResponse res),
               { st with lndCalls := st.lndCalls
                   ++ [LndCall.sendPayment req] })) := by
  cases hcr : createLnRpcSendRequest env inv with
  | error e =>
    refine Or.inl ⟨e, st, ?_, rfl⟩
    simp only [SendPaymentSync, hcr]
  | ok req =>
    cases hlnd : env.lndSendPayment req with
    | error e =>
      refine Or.inl ⟨e,
        { st with lndCalls := st.lndCalls ++ [LndCall.sendPayment req] },
        ?_, rfl⟩
      simp only [SendPaymentSync, hcr, hlnd]
    | ok res =>
      by_cases hc : res.paymentError ≠ "" ∨ res.paymentPreimage = none
      · refine Or.inl ⟨Err.paymentFailed res.paymentError,
          { st with lndCalls := st.lndCalls ++ [LndCall.sendPayment req] },
          ?_, rfl⟩
        simp only [SendPaymentSync, hcr, hlnd]
        rw [if_pos hc]
      · refine Or.inr ⟨req, res, rfl, hlnd, ?_⟩
        simp only [SendPaymentSync, hcr, hlnd]
        rw [if_neg hc]

theorem mem_updateInvoice_id {db : DB} {i r : Invoice}
    (hr : r ∈ (updateInvoice db i).invoices) (hid : r.id = i.id) : r = i := by
  obtain ⟨r0, hr0, hf⟩ := List.mem_map.mp hr
  by_cases h0 : r0.id = i.id
  · rw [if_pos h0] at hf
    exact hf.symm
  · rw [if_neg h0] at hf
    cases hf
    exact absurd hid h0

theorem mem_updateInvoice_self {db : DB} {i : Invoice}
    (h : ∃ r ∈ db.invoices, r.id = i.id) :
    i ∈ (updateInvoice db i).invoices := by
  obtain ⟨r0, hr0, hid⟩ := h
  exact List.mem_map.mpr ⟨r0, hr0, by rw [if_pos hid]⟩

/-- The reversing insert of a failed payment always succeeds: it credits
back exactly what the provisional entry debited. -/
theorem reversal_insert_ok (inv : Invoice) (st : St) (hamt : 0 ≤ inv.amount)
    (hge : inv.amount ≤ currentUserBalance st.db inv.userID) :
    insertEntry (gateDB inv st.db) (reversalEntry inv (gateEntry inv st.db))
      = .ok ({ reversalEntry inv (gateEntry inv st.db) with
               id := (gateDB inv st.db).nextEntryId },
             revertedDB inv st.db) := by
  apply insertEntry_ok_intro
  rintro (⟨hd, hlt⟩ | ⟨hc, hlt⟩)
  · simp [reversalEntry, gateEntry, payInvoiceEntry, accountFor] at hd
  · have hge2 : inv.amount
        ≤ balanceOf st.db.entries (inv.userID, AccountType.current) := hge
    simp [gateDB, balanceOf_append, balanceOf_singleton, entryDelta,
      reversalEntry, gateEntry, payInvoiceEntry, accountFor] at hlt
    omega

theorem gateDB_entries (inv : Invoice) (db : DB) :
    (gateDB inv db).entries = db.entries ++ [gateEntry inv db] := rfl

/-- Reverting the provisional entry restores the payer's balance. -/
theorem reverted_balance (inv : Invoice) (db : DB) (e : Err) :
    currentUserBalance (updateInvoice (revertedDB inv db) (erroredInvoice inv e))
        inv.userID
      = currentUserBalance db inv.userID := by
  show balanceOf ((db.entries ++ [gateEntry inv db])
      ++ [{ reversalEntry inv (gateEntry inv db) with
            id := (gateDB inv db).nextEntryId }])
      (accountFor .current inv.userID).id
    = balanceOf db.entries (accountFor .current inv.userID).id
  rw [balanceOf_append, balanceOf_append, balanceOf_singleton,
    balanceOf_singleton]
  have h1 : entryDelta (accountFor .current inv.userID).id
      (gateEntry inv db) = -inv.amount := by
    simp [entryDelta, gateEntry, payInvoiceEntry, accountFor]
  have h2 : entryDelta (accountFor .current inv.userID).id
      { reversalEntry inv (gateEntry inv db) with
        id := (gateDB inv db).nextEntryId } = inv.amount := by
    simp [entryDelta, reversalEntry, gateEntry, payInvoiceEntry, accountFor]
  rw [h1, h2]
  ring

/-- After failure reconciliation of the provisional entry: the invoice
row reads `Error`, its entries are exactly the principal and its
reversal, and the payer's balance is back to its initial value. -/
theorem reverted_state_facts (inv : Invoice) (st : St) (e : Err)
    (hrow : ∃ r ∈ st.db.invoices, r.id = inv.id)
    (hfresh : entriesFor st.db inv.id = []) :
    invoiceRowState (updateInvoice (revertedDB inv st.db) (erroredInvoice inv e))
        inv.id = some InvoiceState.error
    ∧ entriesFor (updateInvoice (revertedDB inv st.db) (erroredInvoice inv e))
        inv.id
      = [gateEntry inv st.db,
         { reversalEntry inv (gateEntry inv st.db) with
           id := (gateDB inv st.db).nextEntryId }]
    ∧ currentUserBalance
        (updateInvoice (revertedDB inv st.db) (erroredInvoice inv e))
        inv.userID
      = currentUserBalance st.db inv.userID := by
  refine ⟨?_, ?_, ?_⟩
  · exact invoiceRowState_updateInvoice_self (revertedDB inv st.db)
      (erroredInvoice inv e) hrow
  · show ((st.db.entries ++ [gateEntry inv st.db])
        ++ [{ reversalEntry inv (gateEntry inv st.db) with
              id := (gateDB inv st.db).nextEntryId }]).filter
        (fun e2 => e2.invoiceID = inv.id)
      = [gateEntry inv st.db,
         { reversalEntry inv (gateEntry inv st.db) with
           id := (gateDB inv st.db).nextEntryId }]
    rw [List.filter_append, List.filter_append]
    have h0 : st.db.entries.filter (fun e2 => e2.invoiceID = inv.id) = [] :=
      hfresh
    rw [h0]
    simp [List.filter, gateEntry, payInvoiceEntry, reversalEntry]
  · exact reverted_balance inv st.db e

theorem SendPaymentSync_db (env : Env) (inv : Invoice) (st : St) :
    (SendPaymentSync env inv st).2.db = st.db := by
  simp only [SendPaymentSync]
  split
  · rfl
  · split
    · rfl
    · split
      · rfl
      · rfl

/-- Entries after failure reconciliation: the old ones plus possibly the
reversal, whose amount is the invoice amount. -/
theorem HandleFailedPayment_entries (inv : Invoice) (pe : TransactionEntry)
    (e : Err) (st : St) :
    ∀ x ∈ (HandleFailedPayment inv pe e st).2.db.entries,
      x ∈ st.db.entries ∨ x.amount = inv.amount := by
  simp only [HandleFailedPayment]
  cases hins : insertEntry st.db (reversalEntry inv pe) with
  | error e2 => exact fun x hx => Or.inl hx
  | ok x0 =>
    obtain ⟨x1, db1⟩ := x0
    obtain ⟨hpair, -⟩ := insertEntry_ok_elim hins
    rw [Prod.mk.injEq] at hpair
    obtain ⟨-, hdb1⟩ := hpair
    intro x hx
    have hx2 : x ∈ db1.entries := hx
    rw [hdb1] at hx2
    rcases List.mem_append.mp hx2 with h | h
    · exact Or.inl h
    · rw [List.mem_singleton.mp h]
      exact Or.inr rfl

/-- Entries after success reconciliation: the old ones plus possibly the
fee entry, whose amount is the invoice's fee. -/
theorem HandleSuccessfulPayment_entries (env : Env) (inv : Invoice)
    (pe : TransactionEntry) (st : St) :
    ∀ x ∈ (HandleSuccessfulPayment env inv pe st).2.db.entries,
      x ∈ st.db.entries ∨ x.amount = inv.fee := by
  simp only [HandleSuccessfulPayment]
  cases hins : insertEntry (updateInvoice st.db (settledInvoice env inv))
      (feeEntry inv pe) with
  | error e2 => exact fun x hx => Or.inl hx
  | ok x0 =>
    obtain ⟨x1, db2⟩ := x0
    obtain ⟨hpair, -⟩ := insertEntry_ok_elim hins
    rw [Prod.mk.injEq] at hpair
    obtain ⟨-, hdb2⟩ := hpair
    intro x hx
    have hx2 : x ∈ db2.entries := hx
    rw [hdb2] at hx2
    rcases List.mem_append.mp hx2 with h | h
    · exact Or.inl h
    · rw [List.mem_singleton.mp h]
      exact Or.inr rfl

/-- Entries after internal settlement: the old ones plus possibly the
recipient's entry, whose amount is the invoice amount. -/
theorem SendInternalPayment_entries (env : Env) (inv : Invoice) (st : St) :
    ∀ x ∈ (SendInternalPayment env inv st).2.db.entries,
      x ∈ st.db.entries ∨ x.amount = inv.amount := by
  rcases SendInternalPayment_cases env inv st with
    ⟨e, heq⟩ | ⟨B, x1, db1, hfind, hins, heq⟩
  · rw [heq]
    exact fun x hx => Or.inl hx
  · rw [heq]
    obtain ⟨hpair, -⟩ := insertEntry_ok_elim hins
    rw [Prod.mk.injEq] at hpair
    obtain ⟨-, hdb1⟩ := hpair
    intro x hx
    have hx2 : x ∈ db1.entries := hx
    rw [hdb1] at hx2
    rcases List.mem_append.mp hx2 with h | h
    · exact Or.inl h
    · rw [List.mem_singleton.mp h]
      exact Or.inr rfl

/-! ## The claims -/

/-- Claim C10: every preimage produced by `makePreimageHex` has exactly 32
bytes, each byte the ASCII code of one of the 16 characters of the hex
alphabet, and consequently the space of possible preimages has at most
`16 ^ 32` elements. -/
theorem makePreimageHex_hex_alphabet (rand : Fin 32 → Fin 16) :
    (makePreimageHex rand).length = 32
    ∧ (∀ b ∈ makePreimageHex rand, b ∈ hexBytes.data.map Char.toNat)
    ∧ (Finset.univ.image makePreimageHex).card ≤ 16 ^ 32 := by
  refine ⟨makePreimageHex_length rand, fun b hb => makePreimageHex_mem hb, ?_⟩
  calc (Finset.univ.image makePreimageHex).card
      ≤ (Finset.univ : Finset (Fin 32 → Fin 16)).card := Finset.card_image_le
    _ = 16 ^ 32 := by
        rw [Finset.card_univ, Fintype.card_fun]
        simp

/-- Claim C9: for a keysend request the payment hash is the sha256 of the
freshly generated preimage attached to the destination custom records;
and an incoming invoice's stored preimage string hex-decodes back to the
exact 32 generated bytes. -/
theorem preimage_roundtrip (env : Env) (invoice : Invoice)
    (destBytes : List Nat) (userID amount : Int) (memo dh : String) (st : St)
    (hk : invoice.keysend = true)
    (hd : hexDecodeStrict invoice.destinationPubkeyHex = some destBytes) :
    (∃ req, createLnRpcSendRequest env invoice = .ok req
        ∧ req.paymentHash = env.sha (makePreimageHex env.preimageRand)
        ∧ getRecord req.destCustomRecords KEYSEND_CUSTOM_RECORD
            = some (makePreimageHex env.preimageRand))
    ∧ (∀ inv2, (AddIncomingInvoice env userID amount memo dh st).1 = .ok inv2 →
        inv2.preimage = hexEncode (makePreimageHex env.preimageRand)
        ∧ hexDecodeStrict inv2.preimage
            = some (makePreimageHex env.preimageRand)) := by
  constructor
  · have hreq : createLnRpcSendRequest env invoice
        = .ok { dest := destBytes, amt := invoice.amount,
                paymentHash := env.sha (makePreimageHex env.preimageRand),
                feeLimitFixed := 300, destFeaturesTlvOnion := true,
                destCustomRecords :=
                  setRecord invoice.destinationCustomRecords
                    KEYSEND_CUSTOM_RECORD (makePreimageHex env.preimageRand) } := by
      simp [createLnRpcSendRequest, hk, hd]
    exact ⟨_, hreq, rfl, getRecord_setRecord _ _ _⟩
  · intro inv2 h2
    simp only [AddIncomingInvoice] at h2
    split at h2
    · exact absurd h2 (by simp)
    · split at h2
      · exact absurd h2 (by simp)
      · have h3 := h2
        simp only [Except.ok.injEq] at h3
        have hpre : inv2.preimage = hexEncode (makePreimageHex env.preimageRand) := by
          rw [← h3]
        exact ⟨hpre, by
          rw [hpre]
          exact hexDecodeStrict_hexEncode fun b hb => makePreimageHex_lt hb⟩

/-- Concrete instantiation of `preimage_roundtrip` (keysend invoice with
destination key `"ab"`, incoming invoice created against the fixture
oracle). -/
theorem preimage_roundtrip_witness :
    (∃ req, createLnRpcSendRequest envX invK = .ok req
        ∧ req.paymentHash = envX.sha (makePreimageHex envX.preimageRand)
        ∧ getRecord req.destCustomRecords KEYSEND_CUSTOM_RECORD
            = some (makePreimageHex envX.preimageRand))
    ∧ (∀ inv2, (AddIncomingInvoice envX 7 250 "memo" "" stX).1 = .ok inv2 →
        inv2.preimage = hexEncode (makePreimageHex envX.preimageRand)
        ∧ hexDecodeStrict inv2.preimage
            = some (makePreimageHex envX.preimageRand)) :=
  preimage_roundtrip envX invK [171] 7 250 "memo" "" stX rfl (by decide)

/-- Claim C4: an internal payment that finds a matching open incoming
invoice returns the preimage already stored on that invoice — as the hex
string and as its decoded bytes — with a zero-fee route, and rewrites the
recipient's invoice to internal, settled, with a settlement timestamp. -/
theorem SendInternalPayment_known_preimage (env : Env) (inv B : Invoice)
    (st : St)
    (hfind : findOpenIncoming st.db inv.paymentRequest = some B)
    (hamt : 0 ≤ inv.amount)
    (hbal : 0 ≤ accountBalance st.db (accountFor .current B.userID).id) :
    (SendInternalPayment env inv st).1 = .ok (internalResponse inv B)
    ∧ (internalResponse inv B).paymentPreimageStr = B.preimage
    ∧ (internalResponse inv B).paymentPreimage = hexDecodeGo B.preimage
    ∧ (internalResponse inv B).paymentRoute
        = some { totalAmt := inv.amount, totalFees := 0 }
    ∧ (∀ r ∈ (SendInternalPayment env inv st).2.db.invoices, r.id = B.id →
        r = settledIncoming env B)
    ∧ settledIncoming env B ∈ (SendInternalPayment env inv st).2.db.invoices
    ∧ (settledIncoming env B).internal = true
    ∧ (settledIncoming env B).state = InvoiceState.settled
    ∧ (settledIncoming env B).settledAt = some env.now
    ∧ (settledIncoming env B).preimage = B.preimage := by
  have hins : insertEntry st.db (recipientEntry inv B)
      = .ok ({ recipientEntry inv B with id := st.db.nextEntryId },
             recipDB inv B st.db) := by
    apply insertEntry_ok_intro
    rintro (⟨hd, hlt⟩ | ⟨hc, hlt⟩)
    · simp [recipientEntry, accountFor] at hd
    · have hbal2 : 0 ≤ balanceOf st.db.entries (B.userID, AccountType.current) :=
        hbal
      simp [recipientEntry, accountFor, entryDelta] at hlt
      omega
  have hrun : SendInternalPayment env inv st
      = (.ok (internalResponse inv B),
         { st with db := updateInvoice (recipDB inv B st.db)
                           (settledIncoming env B) }) := by
    simp only [SendInternalPayment, hfind, hins]
  have hBmem : B ∈ st.db.invoices := List.mem_of_find?_eq_some hfind
  refine ⟨by rw [hrun], rfl, rfl, rfl, ?_, ?_, rfl, rfl, rfl, rfl⟩
  · intro r hr hid
    rw [hrun] at hr
    exact mem_updateInvoice_id hr hid
  · rw [hrun]
    exact mem_updateInvoice_self ⟨B, hBmem, rfl⟩

/-- Concrete instantiation of `SendInternalPayment_known_preimage`:
user 1's invoice `invA` against user 2's open incoming invoice `invB`. -/
theorem SendInternalPayment_known_preimage_witness :
    (SendInternalPayment envX invA stX).1 = .ok (internalResponse invA invB)
    ∧ (internalResponse invA invB).paymentPreimageStr = invB.preimage
    ∧ (internalResponse invA invB).paymentPreimage = hexDecodeGo invB.preimage
    ∧ (internalResponse invA invB).paymentRoute
        = some { totalAmt := invA.amount, totalFees := 0 }
    ∧ (∀ r ∈ (SendInternalPayment envX invA stX).2.db.invoices, r.id = invB.id →
        r = settledIncoming envX invB)
    ∧ settledIncoming envX invB ∈ (SendInternalPayment envX invA stX).2.db.invoices
    ∧ (settledIncoming envX invB).internal = true
    ∧ (settledIncoming envX invB).state = InvoiceState.settled
    ∧ (settledIncoming envX invB).settledAt = some envX.now
    ∧ (settledIncoming envX invB).preimage = invB.preimage :=
  SendInternalPayment_known_preimage envX invA invB stX (by decide) (by decide)
    (by decide)

/-- Claim C2: when the payer's `Current` balance cannot cover the invoice
amount, the provisional insert is rejected by the balance constraint and
`PayInvoice` stops with `insufficientBalance`, leaving the whole state —
store, ledger, invoice rows, and the log of node calls — exactly as it
was: no routing call of any kind is made. -/
theorem PayInvoice_balance_gate (env : Env) (inv : Invoice) (st : St)
    (hbal : currentUserBalance st.db inv.userID < inv.amount) :
    PayInvoice env inv st = ((none, some Err.insufficientBalance), st) := by
  have hg := payInvoice_gate_error inv st hbal
  simp only [PayInvoice]
  rw [hg]

/-- Concrete instantiation of `PayInvoice_balance_gate`: user 3 holds no
funds and attempts a 500-sat payment. -/
theorem PayInvoice_balance_gate_witness :
    PayInvoice envX invC stX = ((none, some Err.insufficientBalance), stX) :=
  PayInvoice_balance_gate envX invC stX (by decide)

/-- Claim C3: once the provisional entry is in, the routing decision is
determined solely by public-key equality — equal keys continue with
`SendInternalPayment` (which makes no node call), different keys continue
with `SendPaymentSync`; exactly one of the two is taken. -/
theorem PayInvoice_routing_decision (env : Env) (inv : Invoice) (st : St)
    (hbal : inv.amount ≤ currentUserBalance st.db inv.userID) :
    (env.identityPubkey = inv.destinationPubkeyHex →
      PayInvoice env inv st
        = settleRouted env inv (gateEntry inv st.db)
            (SendInternalPayment env inv { st with db := gateDB inv st.db })
      ∧ (SendInternalPayment env inv
          { st with db := gateDB inv st.db }).2.lndCalls = st.lndCalls)
    ∧ (env.identityPubkey ≠ inv.destinationPubkeyHex →
      PayInvoice env inv st
        = settleRouted env inv (gateEntry inv st.db)
            (SendPaymentSync env inv { st with db := gateDB inv st.db })) := by
  have hg := payInvoice_gate_ok inv st hbal
  have hrun : PayInvoice env inv st
      = settleRouted env inv (gateEntry inv st.db)
          (if env.identityPubkey = inv.destinationPubkeyHex then
            SendInternalPayment env inv { st with db := gateDB inv st.db }
          else
            SendPaymentSync env inv { st with db := gateDB inv st.db }) := by
    simp only [PayInvoice]
    rw [hg]
  refine ⟨fun h => ⟨?_, SendInternalPayment_lndCalls env inv _⟩, fun h => ?_⟩
  · rw [hrun, if_pos h]
  · rw [hrun, if_neg h]

/-- Concrete instantiation of `PayInvoice_routing_decision`: the fixture
invoice `invA` is destined to the service's own key, so the internal leg
fires. -/
theorem PayInvoice_routing_decision_witness :
    (envX.identityPubkey = invA.destinationPubkeyHex →
      PayInvoice envX invA stX
        = settleRouted envX invA (gateEntry invA stX.db)
            (SendInternalPayment envX invA { stX with db := gateDB invA stX.db })
      ∧ (SendInternalPayment envX invA
          { stX with db := gateDB invA stX.db }).2.lndCalls = stX.lndCalls)
    ∧ (envX.identityPubkey ≠ invA.destinationPubkeyHex →
      PayInvoice envX invA stX
        = settleRouted envX invA (gateEntry invA stX.db)
            (SendPaymentSync envX invA { stX with db := gateDB invA stX.db })) :=
  PayInvoice_routing_decision envX invA stX (by decide)

/-- Claim C6: when the node call itself returns without a transport
error, a non-empty payment-error field or an absent preimage makes
`SendPaymentSync` fail; it succeeds, carrying preimage, payment hash and
route, exactly when the payment-error field is empty and a preimage is
present. -/
theorem SendPaymentSync_in_payload_signal (env : Env) (invoice : Invoice)
    (st : St) (req : SendRequest) (res : SendPaymentResult)
    (hreq : createLnRpcSendRequest env invoice = .ok req)
    (hres : env.lndSendPayment req = .ok res) :
    (res.paymentError ≠ "" ∨ res.paymentPreimage = none →
      (SendPaymentSync env invoice st).1
        = .error (.paymentFailed res.paymentError))
    ∧ (∀ p, res.paymentError = "" → res.paymentPreimage = some p →
      (SendPaymentSync env invoice st).1 = .ok
        { paymentPreimage := p, paymentPreimageStr := hexEncode p,
          paymentHash := res.paymentHash,
          paymentHashStr := hexEncode res.paymentHash,
          paymentRoute := some { totalAmt := res.routeTotalAmt,
                                 totalFees := res.routeTotalFees } }) := by
  constructor
  · intro hfail
    simp only [SendPaymentSync, hreq, hres]
    rw [if_pos hfail]
  · intro p he hp
    simp only [SendPaymentSync, hreq, hres]
    rw [if_neg (by simp [he, hp])]
    simp [externalResponse, hp]

/-- Concrete instantiation of `SendPaymentSync_in_payload_signal`: the
oracle replies without transport error but with payment error
`"no route"` and no preimage. -/
theorem SendPaymentSync_in_payload_signal_witness :
    (resPayErr.paymentError ≠ "" ∨ resPayErr.paymentPreimage = none →
      (SendPaymentSync envPayErr invC stX).1
        = .error (.paymentFailed resPayErr.paymentError))
    ∧ (∀ p, resPayErr.paymentError = "" → resPayErr.paymentPreimage = some p →
      (SendPaymentSync envPayErr invC stX).1 = .ok
        { paymentPreimage := p, paymentPreimageStr := hexEncode p,
          paymentHash := resPayErr.paymentHash,
          paymentHashStr := hexEncode resPayErr.paymentHash,
          paymentRoute := some { totalAmt := resPayErr.routeTotalAmt,
                                 totalFees := resPayErr.routeTotalFees } }) :=
  SendPaymentSync_in_payload_signal envPayErr invC stX reqC resPayErr
    rfl rfl

/-- Claim C1 (counterexample): paying with an insufficient balance makes
`PayInvoice` return an error while the invoice row stays `Initialized`
and no ledger entry at all is recorded — not the claimed `Error` state
with exactly two entries — so `PayInvoice` is not all-or-nothing in the
claimed sense. -/
theorem payInvoice_atomic_counterexample :
    ¬ SpecClaimPayInvoiceAtomic envX invC stX := by
  intro h
  have h2 := h.2 (by decide)
  exact absurd h2.2.1 (by decide)

set_option maxHeartbeats 1000000 in
/-- Claim C1 (amended): `PayInvoice` reconciliation trichotomy.  Either
the caller receives only an error — and then the state is completely
untouched (failure at the provisional insert) or the invoice ends
`Error` with exactly the principal entry and its exact reversal and an
unchanged payer balance; or the caller receives only a success response
with a route — and then the invoice ends `Settled` with exactly the
principal entry and the parent-linked fee entry; or — the leg the
original claim misses — success reconciliation's fee insert is rejected,
the caller receives the payment response *together with* an error, and
the invoice ends `Settled` with only the principal entry. -/
theorem PayInvoice_reconciliation (env : Env) (inv : Invoice) (st : St)
    (hamt : 0 ≤ inv.amount)
    (hrow : ∃ r ∈ st.db.invoices, r.id = inv.id)
    (htyp : ∀ r ∈ st.db.invoices, r.id = inv.id → r.typ = InvoiceType.outgoing)
    (hfresh : entriesFor st.db inv.id = []) :
    ((PayInvoice env inv st).1.1 = none ∧ (PayInvoice env inv st).1.2 ≠ none →
      (PayInvoice env inv st).2 = st
      ∨ (invoiceRowState (PayInvoice env inv st).2.db inv.id
            = some InvoiceState.error
        ∧ (∃ p rv, entriesFor (PayInvoice env inv st).2.db inv.id = [p, rv]
            ∧ rv.creditAccountID = p.debitAccountID
            ∧ rv.debitAccountID = p.creditAccountID
            ∧ rv.amount = p.amount ∧ p.amount = inv.amount)
        ∧ currentUserBalance (PayInvoice env inv st).2.db inv.userID
            = currentUserBalance st.db inv.userID))
    ∧ ((PayInvoice env inv st).1.2 = none →
      ∃ rp route, (PayInvoice env inv st).1.1 = some rp
        ∧ rp.paymentRoute = some route
        ∧ invoiceRowState (PayInvoice env inv st).2.db inv.id
            = some InvoiceState.settled
        ∧ ∃ p f, entriesFor (PayInvoice env inv st).2.db inv.id = [p, f]
            ∧ f.parentID = some p.id ∧ f.amount = route.totalFees
            ∧ p.amount = inv.amount)
    ∧ ((PayInvoice env inv st).1.1 ≠ none ∧ (PayInvoice env inv st).1.2 ≠ none →
      (PayInvoice env inv st).1.2 = some Err.insufficientBalance
      ∧ invoiceRowState (PayInvoice env inv st).2.db inv.id
          = some InvoiceState.settled
      ∧ ∃ p, entriesFor (PayInvoice env inv st).2.db inv.id = [p]
          ∧ p.amount = inv.amount) := by
  rcases lt_or_le (currentUserBalance st.db inv.userID) inv.amount with hlt | hge
  · have hg := payInvoice_gate_error inv st hlt
    have hrun : PayInvoice env inv st
        = ((none, some Err.insufficientBalance), st) := by
      simp only [PayInvoice]
      rw [hg]
    rw [hrun]
    exact ⟨fun _ => Or.inl rfl, fun h => absurd h (by simp),
           fun h => absurd rfl h.1⟩
  · rw [payInvoice_routed_eq env inv st hge]
    set g := gateEntry inv st.db with hgdef
    set stG : St := { st with db := gateDB inv st.db } with hstGdef
    have hentGate : (gateDB inv st.db).entries.filter
        (fun e2 => decide (e2.invoiceID = inv.id)) = [g] := by
      rw [gateDB_entries, List.filter_append]
      have h0 : st.db.entries.filter
          (fun e2 => decide (e2.invoiceID = inv.id)) = [] := hfresh
      rw [h0]
      simp [List.filter, hgdef, gateEntry, payInvoiceEntry]
    by_cases hid : env.identityPubkey = inv.destinationPubkeyHex
    · rw [if_pos hid]
      rcases SendInternalPayment_cases env inv stG
        with ⟨e, heq⟩ | ⟨B, x1, db1, hfind, hins, heq⟩
      · have hrev : insertEntry stG.db (reversalEntry inv g)
            = .ok ({ reversalEntry inv g with
                     id := (gateDB inv st.db).nextEntryId },
                   revertedDB inv st.db) :=
          reversal_insert_ok inv st hamt hge
        rw [heq, settleRouted_error_eq,
          HandleFailedPayment_run inv g e stG hrev]
        obtain ⟨hrs, hent, hbal2⟩ := reverted_state_facts inv st e hrow hfresh
        exact ⟨fun _ => Or.inr ⟨hrs, ⟨_, _, hent, rfl, rfl, rfl, rfl⟩, hbal2⟩,
               fun h => absurd h (by simp), fun h => absurd rfl h.1⟩
      · have hmatch : matchesOpenIncoming inv.paymentRequest B = true :=
          List.find?_some hfind
        simp only [matchesOpenIncoming, Bool.decide_and,
          Bool.and_eq_true, decide_eq_true_eq] at hmatch
        have hBmem : B ∈ st.db.invoices := List.mem_of_find?_eq_some hfind
        have hBne : B.id ≠ inv.id := by
          intro hEq
          have h2 := htyp B hBmem hEq
          rw [hmatch.1] at h2
          exact InvoiceType.noConfusion h2
        rw [heq, settleRouted_ok_eq]
        set sI := stampedInvoice inv (withEntry (internalResponse inv B) g)
          with hsIdef
        set dbMid := updateInvoice db1 (settledIncoming env B) with hdbMiddef
        have hrow2 : ∃ r ∈ dbMid.invoices, r.id = inv.id := by
          rw [hdbMiddef]
          apply exists_id_updateInvoice
          rw [insertEntry_invoices hins]
          exact hrow
        have hent2 : dbMid.entries.filter
            (fun e2 => decide (e2.invoiceID = inv.id)) = [g] := by
          rw [hdbMiddef]
          show db1.entries.filter (fun e2 => decide (e2.invoiceID = inv.id)) = _
          rw [insertEntry_entries hins, List.filter_append]
          rw [show (stG.db.entries.filter
            (fun e2 => decide (e2.invoiceID = inv.id))) = [g] from hentGate]
          simp [List.filter, recipientEntry, hBne]
        cases hfe : insertEntry (updateInvoice dbMid (settledInvoice env sI))
            (feeEntry sI g) with
        | ok x0 =>
          obtain ⟨xf, db2⟩ := x0
          rw [HandleSuccessfulPayment_run_ok env sI g { stG with db := dbMid }
            hfe]
          have hrs2 : invoiceRowState db2 inv.id = some InvoiceState.settled := by
            show (db2.invoices.find? (fun r => decide (r.id = inv.id))).map
              Invoice.state = some InvoiceState.settled
            rw [insertEntry_invoices hfe]
            exact invoiceRowState_updateInvoice_self dbMid
              (settledInvoice env sI) hrow2
          have hent3 : entriesFor db2 inv.id
              = [g, { feeEntry sI g with
                      id := (updateInvoice dbMid
                        (settledInvoice env sI)).nextEntryId }] := by
            show db2.entries.filter (fun e2 => decide (e2.invoiceID = inv.id)) = _
            rw [insertEntry_entries hfe, List.filter_append]
            rw [show ((updateInvoice dbMid (settledInvoice env sI)).entries.filter
              (fun e2 => decide (e2.invoiceID = inv.id))) = [g] from hent2]
            simp [List.filter, hsIdef, feeEntry, stampedInvoice, withEntry]
          refine ⟨fun h => absurd h.1 (by simp), fun _ => ?_,
                  fun h => absurd rfl h.2⟩
          exact ⟨withEntry (internalResponse inv B) g,
                 { totalAmt := inv.amount, totalFees := 0 }, rfl, rfl, hrs2,
                 ⟨_, _, hent3, rfl, rfl, rfl⟩⟩
        | error e2 =>
          rw [HandleSuccessfulPayment_run_err env sI g { stG with db := dbMid }
            hfe]
          obtain ⟨he2, -⟩ := insertEntry_error_elim hfe
          have hrs2 : invoiceRowState
              (updateInvoice dbMid (settledInvoice env sI)) inv.id
              = some InvoiceState.settled :=
            invoiceRowState_updateInvoice_self dbMid (settledInvoice env sI)
              hrow2
          refine ⟨fun h => absurd h.1 (by simp), fun h => absurd h (by simp),
                  fun _ => ⟨by rw [he2], hrs2, ⟨g, hent2, rfl⟩⟩⟩
    · rw [if_neg hid]
      rcases SendPaymentSync_cases env inv stG
        with ⟨e, st2, heq, hdb⟩ | ⟨req, res, hcr, hlnd, heq⟩
      · have hins2 : insertEntry st2.db (reversalEntry inv g)
            = .ok ({ reversalEntry inv g with
                     id := (gateDB inv st.db).nextEntryId },
                   revertedDB inv st.db) := by
          rw [hdb]
          exact reversal_insert_ok inv st hamt hge
        rw [heq, settleRouted_error_eq,
          HandleFailedPayment_run inv g e st2 hins2]
        obtain ⟨hrs, hent, hbal2⟩ := reverted_state_facts inv st e hrow hfresh
        exact ⟨fun _ => Or.inr ⟨hrs, ⟨_, _, hent, rfl, rfl, rfl, rfl⟩, hbal2⟩,
               fun h => absurd h (by simp), fun h => absurd rfl h.1⟩
      · rw [heq, settleRouted_ok_eq]
        set sI := stampedInvoice inv (withEntry (externalResponse res) g)
          with hsIdef
        have hrow2 : ∃ r ∈ (gateDB inv st.db).invoices, r.id = inv.id := hrow
        cases hfe : insertEntry
            (updateInvoice (gateDB inv st.db) (settledInvoice env sI))
            (feeEntry sI g) with
        | ok x0 =>
          obtain ⟨xf, db2⟩ := x0
          rw [HandleSuccessfulPayment_run_ok env sI g
            { stG with lndCalls := stG.lndCalls ++ [LndCall.sendPayment req] }
            hfe]
          have hrs2 : invoiceRowState db2 inv.id = some InvoiceState.settled := by
            show (db2.invoices.find? (fun r => decide (r.id = inv.id))).map
              Invoice.state = some InvoiceState.settled
            rw [insertEntry_invoices hfe]
            exact invoiceRowState_updateInvoice_self (gateDB inv st.db)
              (settledInvoice env sI) hrow2
          have hent3 : entriesFor db2 inv.id
              = [g, { feeEntry sI g with
                      id := (updateInvoice (gateDB inv st.db)
                        (settledInvoice env sI)).nextEntryId }] := by
            show db2.entries.filter (fun e2 => decide (e2.invoiceID = inv.id)) = _
            rw [insertEntry_entries hfe, List.filter_append]
            rw [show ((updateInvoice (gateDB inv st.db)
              (settledInvoice env sI)).entries.filter
              (fun e2 => decide (e2.invoiceID = inv.id))) = [g] from hentGate]
            simp [List.filter, hsIdef, feeEntry, stampedInvoice, withEntry]
          refine ⟨fun h => absurd h.1 (by simp), fun _ => ?_,
                  fun h => absurd rfl h.2⟩
          exact ⟨withEntry (externalResponse res) g,
                 { totalAmt := res.routeTotalAmt,
                   totalFees := res.routeTotalFees }, rfl, rfl, hrs2,
                 ⟨_, _, hent3, rfl, rfl, rfl⟩⟩
        | error e2 =>
          rw [HandleSuccessfulPayment_run_err env sI g
            { stG with lndCalls := stG.lndCalls ++ [LndCall.sendPayment req] }
            hfe]
          obtain ⟨he2, -⟩ := insertEntry_error_elim hfe
          have hrs2 : invoiceRowState
              (updateInvoice (gateDB inv st.db) (settledInvoice env sI)) inv.id
              = some InvoiceState.settled :=
            invoiceRowState_updateInvoice_self (gateDB inv st.db)
              (settledInvoice env sI) hrow2
          refine ⟨fun h => absurd h.1 (by simp), fun h => absurd h (by simp),
                  fun _ => ⟨by rw [he2], hrs2, ⟨g, ?_, rfl⟩⟩⟩
          exact hentGate


/-- Concrete instantiation of `PayInvoice_reconciliation` on the fixture
internal payment. -/
theorem PayInvoice_reconciliation_witness :
    ((PayInvoice envX invA stX).1.1 = none ∧ (PayInvoice envX invA stX).1.2 ≠ none →
      (PayInvoice envX invA stX).2 = stX
      ∨ (invoiceRowState (PayInvoice envX invA stX).2.db invA.id
            = some InvoiceState.error
        ∧ (∃ p rv, entriesFor (PayInvoice envX invA stX).2.db invA.id = [p, rv]
            ∧ rv.creditAccountID = p.debitAccountID
            ∧ rv.debitAccountID = p.creditAccountID
            ∧ rv.amount = p.amount ∧ p.amount = invA.amount)
        ∧ currentUserBalance (PayInvoice envX invA stX).2.db invA.userID
            = currentUserBalance stX.db invA.userID))
    ∧ ((PayInvoice envX invA stX).1.2 = none →
      ∃ rp route, (PayInvoice envX invA stX).1.1 = some rp
        ∧ rp.paymentRoute = some route
        ∧ invoiceRowState (PayInvoice envX invA stX).2.db invA.id
            = some InvoiceState.settled
        ∧ ∃ p f, entriesFor (PayInvoice envX invA stX).2.db invA.id = [p, f]
            ∧ f.parentID = some p.id ∧ f.amount = route.totalFees
            ∧ p.amount = invA.amount)
    ∧ ((PayInvoice envX invA stX).1.1 ≠ none ∧ (PayInvoice envX invA stX).1.2 ≠ none →
      (PayInvoice envX invA stX).1.2 = some Err.insufficientBalance
      ∧ invoiceRowState (PayInvoice envX invA stX).2.db invA.id
          = some InvoiceState.settled
      ∧ ∃ p, entriesFor (PayInvoice envX invA stX).2.db invA.id = [p]
          ∧ p.amount = invA.amount) :=
  PayInvoice_reconciliation envX invA stX (by decide) (by decide)
    (by decide) (by decide)


/-- Claim C7 (counterexample): after a fully successful internal payment
from the fixture state, the store contains a transaction entry whose
amount is not strictly positive — the fee entry carries the internal
route's zero fee — so not every entry has amount `> 0`. -/
theorem entries_positive_counterexample :
    ¬ SpecClaimEntriesPositive (PayInvoice envX invA stX).2.db := by
  unfold SpecClaimEntriesPositive
  decide

/-- Claim C7 (amended): every transaction entry `PayInvoice` adds — the
principal, the recipient's entry, the reversal, and the fee entry — has a
*non-negative* amount (the invoice amount or the route fee), the fee
entry of an internal payment carrying exactly 0; amounts are not, in
general, strictly positive. -/
theorem PayInvoice_entry_amounts (env : Env) (inv : Invoice) (st : St)
    (hamt : 0 ≤ inv.amount)
    (hfee : ∀ req res, env.lndSendPayment req = .ok res →
      0 ≤ res.routeTotalFees) :
    ∀ x ∈ (PayInvoice env inv st).2.db.entries,
      x ∈ st.db.entries ∨ 0 ≤ x.amount := by
  rcases lt_or_le (currentUserBalance st.db inv.userID) inv.amount with hlt | hge
  · have hg := payInvoice_gate_error inv st hlt
    have hrun : PayInvoice env inv st
        = ((none, some Err.insufficientBalance), st) := by
      simp only [PayInvoice]
      rw [hg]
    rw [hrun]
    exact fun x hx => Or.inl hx
  · rw [payInvoice_routed_eq env inv st hge]
    have hmemGate : ∀ x, x ∈ (gateDB inv st.db).entries →
        x ∈ st.db.entries ∨ 0 ≤ x.amount := by
      intro x hx
      rcases List.mem_append.mp hx with h | h
      · exact Or.inl h
      · rw [List.mem_singleton.mp h]
        exact Or.inr hamt
    by_cases hid : env.identityPubkey = inv.destinationPubkeyHex
    · rw [if_pos hid]
      rcases SendInternalPayment_cases env inv { st with db := gateDB inv st.db }
        with ⟨e, heq⟩ | ⟨B, x1, db1, hfind, hins, heq⟩
      · rw [heq, settleRouted_error_eq]
        intro x hx
        rcases HandleFailedPayment_entries inv (gateEntry inv st.db) e _ x hx
          with h | h
        · exact hmemGate x h
        · exact Or.inr (hamt.trans_eq h.symm)
      · rw [heq, settleRouted_ok_eq]
        intro x hx
        rcases HandleSuccessfulPayment_entries env _ (gateEntry inv st.db) _ x hx
          with h | h
        · obtain ⟨hpair, -⟩ := insertEntry_ok_elim hins
          rw [Prod.mk.injEq] at hpair
          obtain ⟨-, hdb1⟩ := hpair
          have h2 : x ∈ db1.entries := h
          rw [hdb1] at h2
          rcases List.mem_append.mp h2 with h3 | h3
          · exact hmemGate x h3
          · rw [List.mem_singleton.mp h3]
            exact Or.inr hamt
        · have hz : (stampedInvoice inv
              (withEntry (internalResponse inv B) (gateEntry inv st.db))).fee
              = 0 := rfl
          rw [hz] at h
          exact Or.inr (le_of_eq h.symm)
    · rw [if_neg hid]
      rcases SendPaymentSync_cases env inv { st with db := gateDB inv st.db }
        with ⟨e, st2, heq, hdb⟩ | ⟨req, res, hcr, hlnd, heq⟩
      · rw [heq, settleRouted_error_eq]
        intro x hx
        rcases HandleFailedPayment_entries inv (gateEntry inv st.db) e st2 x hx
          with h | h
        · rw [hdb] at h
          exact hmemGate x h
        · exact Or.inr (hamt.trans_eq h.symm)
      · rw [heq, settleRouted_ok_eq]
        intro x hx
        rcases HandleSuccessfulPayment_entries env _ (gateEntry inv st.db) _ x hx
          with h | h
        · exact hmemGate x h
        · have hz : (stampedInvoice inv
              (withEntry (externalResponse res) (gateEntry inv st.db))).fee
              = res.routeTotalFees := rfl
          rw [hz] at h
          exact Or.inr (h ▸ hfee req res hlnd)

/-- Concrete instantiation of `PayInvoice_entry_amounts` on the fixture
internal payment. -/
theorem PayInvoice_entry_amounts_witness :
    gateEntry invA stX.db ∈ stX.db.entries
      ∨ 0 ≤ (gateEntry invA stX.db).amount :=
  PayInvoice_entry_amounts envX invA stX (by decide)
    (by intro req res h; simp [envX] at h)
    (gateEntry invA stX.db) (by decide)

/-- Claim C8: `AddIncomingInvoice` persists an `Initialized` row with a
24-hour expiry before the node call; a node failure propagates with the
row still present and `Initialized` even though the call was made; only
on node success are payment request, payment hash, preimage and add-index
copied onto the row and the state set to `Open`. -/
theorem AddIncomingInvoice_audit_row (env : Env) (u amt : Int)
    (memo dh : String) (st : St) (dhBytes : List Nat)
    (hdh : hexDecodeStrict dh = some dhBytes) :
    (∀ e, env.lndAddInvoice (incomingLnInvoice env amt memo dhBytes)
        = .error e →
      (AddIncomingInvoice env u amt memo dh st).1 = .error e
      ∧ (AddIncomingInvoice env u amt memo dh st).2.db.invoices.getLast?
          = some (initialIncomingRow env u amt memo dh st.db)
      ∧ (initialIncomingRow env u amt memo dh st.db).state
          = InvoiceState.initialized
      ∧ (AddIncomingInvoice env u amt memo dh st).2.lndCalls
          = st.lndCalls
            ++ [LndCall.addInvoice (incomingLnInvoice env amt memo dhBytes)])
    ∧ (∀ r, env.lndAddInvoice (incomingLnInvoice env amt memo dhBytes)
        = .ok r →
      (AddIncomingInvoice env u amt memo dh st).1
          = .ok (openIncomingRow env u amt memo dh st.db r)
      ∧ (AddIncomingInvoice env u amt memo dh st).2.db.invoices.getLast?
          = some (openIncomingRow env u amt memo dh st.db r)
      ∧ (openIncomingRow env u amt memo dh st.db r).state
          = InvoiceState.open) := by
  constructor
  · intro e he
    simp only [incomingLnInvoice] at he
    simp only [AddIncomingInvoice, insertInvoice, hdh, he]
    refine ⟨by trivial, ?_, by rfl, by trivial⟩
    rw [getLast?_concat_eq]
    rfl
  · intro r hr
    simp only [incomingLnInvoice] at hr
    simp only [AddIncomingInvoice, insertInvoice, updateInvoice, hdh, hr]
    refine ⟨by rfl, ?_, by rfl⟩
    apply getLast?_map_update_concat
    rfl

/-- Concrete instantiation of `AddIncomingInvoice_audit_row` against the
fixture oracle. -/
theorem AddIncomingInvoice_audit_row_witness :
    (∀ e, envX.lndAddInvoice (incomingLnInvoice envX 250 "memo" [])
        = .error e →
      (AddIncomingInvoice envX 7 250 "memo" "" stX).1 = .error e
      ∧ (AddIncomingInvoice envX 7 250 "memo" "" stX).2.db.invoices.getLast?
          = some (initialIncomingRow envX 7 250 "memo" "" stX.db)
      ∧ (initialIncomingRow envX 7 250 "memo" "" stX.db).state
          = InvoiceState.initialized
      ∧ (AddIncomingInvoice envX 7 250 "memo" "" stX).2.lndCalls
          = stX.lndCalls
            ++ [LndCall.addInvoice (incomingLnInvoice envX 250 "memo" [])])
    ∧ (∀ r, envX.lndAddInvoice (incomingLnInvoice envX 250 "memo" [])
        = .ok r →
      (AddIncomingInvoice envX 7 250 "memo" "" stX).1
          = .ok (openIncomingRow envX 7 250 "memo" "" stX.db r)
      ∧ (AddIncomingInvoice envX 7 250 "memo" "" stX).2.db.invoices.getLast?
          = some (openIncomingRow envX 7 250 "memo" "" stX.db r)
      ∧ (openIncomingRow envX 7 250 "memo" "" stX.db r).state
          = InvoiceState.open) :=
  AddIncomingInvoice_audit_row envX 7 250 "memo" "" stX [] (by decide)

set_option maxHeartbeats 1000000 in
/-- Claim C5: paying an open incoming invoice of the service's own node
settles it internally, and a second attempt on the same payment request
finds no open invoice: it fails with `notFound`, its provisional debit is
reversed, and the payer is charged exactly once overall. -/
theorem PayInvoice_internal_idempotent (env : Env) (inv B : Invoice) (st : St)
    (hid : env.identityPubkey = inv.destinationPubkeyHex)
    (hfind : findOpenIncoming st.db inv.paymentRequest = some B)
    (huniq : ∀ r ∈ st.db.invoices,
      matchesOpenIncoming inv.paymentRequest r = true → r = B)
    (htyp : ∀ r ∈ st.db.invoices, r.id = inv.id → r.typ = InvoiceType.outgoing)
    (hamt : 0 ≤ inv.amount)
    (hbal : inv.amount + inv.amount ≤ currentUserBalance st.db inv.userID)
    (hbalB : 0 ≤ accountBalance st.db (accountFor .current B.userID).id)
    (huser : B.userID ≠ inv.userID) :
    ∃ rp st1,
      PayInvoice env inv st = ((some rp, none), st1)
      ∧ currentUserBalance st1.db inv.userID
          = currentUserBalance st.db inv.userID - inv.amount
      ∧ (PayInvoice env inv st1).1 = (none, some Err.notFound)
      ∧ currentUserBalance (PayInvoice env inv st1).2.db inv.userID
          = currentUserBalance st.db inv.userID - inv.amount
      ∧ ∃ p rv, (PayInvoice env inv st1).2.db.entries
          = st1.db.entries ++ [p, rv]
          ∧ rv.creditAccountID = p.debitAccountID
          ∧ rv.debitAccountID = p.creditAccountID
          ∧ p.amount = inv.amount ∧ rv.amount = inv.amount := by
  have hge : inv.amount ≤ currentUserBalance st.db inv.userID := by omega
  have hmatchB : matchesOpenIncoming inv.paymentRequest B = true :=
    List.find?_some hfind
  have hBmem : B ∈ st.db.invoices := List.mem_of_find?_eq_some hfind
  have hBne : B.id ≠ inv.id := by
    intro hEq
    have h2 := htyp B hBmem hEq
    simp only [matchesOpenIncoming, Bool.decide_and, Bool.and_eq_true,
      decide_eq_true_eq] at hmatchB
    rw [hmatchB.1] at h2
    exact InvoiceType.noConfusion h2
  set sIfull := stampedInvoice inv (withEntry (internalResponse inv B)
    (gateEntry inv st.db)) with hsIdef
  set recE := { recipientEntry inv B with
    id := (gateDB inv st.db).nextEntryId } with hrecEdef
  set recDB := { gateDB inv st.db with
    entries := (gateDB inv st.db).entries ++ [recE],
    nextEntryId := (gateDB inv st.db).nextEntryId + 1 } with hrecDBdef
  set dbMid := updateInvoice recDB (settledIncoming env B) with hdbMiddef
  set dbSet := updateInvoice dbMid (settledInvoice env sIfull) with hdbSetdef
  set feeE := { feeEntry sIfull (gateEntry inv st.db) with
    id := dbSet.nextEntryId } with hfeeEdef
  set feeDB := { dbSet with
    entries := dbSet.entries ++ [feeE],
    nextEntryId := dbSet.nextEntryId + 1 } with hfeeDBdef
  set stFin1 : St := { st with db := feeDB } with hstFin1def
  -- first run
  have hfindG : findOpenIncoming (gateDB inv st.db) inv.paymentRequest
      = some B := hfind
  have hinsRec : insertEntry (gateDB inv st.db) (recipientEntry inv B)
      = .ok (recE, recDB) := by
    apply insertEntry_ok_intro
    rintro (⟨hd, hlt⟩ | ⟨hc, hlt⟩)
    · simp [recipientEntry, accountFor] at hd
    · have hbalB2 : 0 ≤ balanceOf st.db.entries (B.userID, AccountType.current) :=
        hbalB
      simp [gateDB_entries, balanceOf_append, balanceOf_singleton, entryDelta,
        recipientEntry, gateEntry, payInvoiceEntry, accountFor,
        Ne.symm huser] at hlt
      omega
  have hrunISP1 : SendInternalPayment env inv { st with db := gateDB inv st.db }
      = (.ok (internalResponse inv B), { st with db := dbMid }) := by
    simp only [SendInternalPayment, hfindG, hinsRec]
  have hfeIns : insertEntry
      (updateInvoice dbMid (settledInvoice env
        (stampedInvoice inv (withEntry (internalResponse inv B)
          (gateEntry inv st.db)))))
      (feeEntry (stampedInvoice inv (withEntry (internalResponse inv B)
        (gateEntry inv st.db))) (gateEntry inv st.db))
      = .ok (feeE, feeDB) := by
    apply insertEntry_ok_intro
    rintro (⟨hd, hlt⟩ | ⟨hc, hlt⟩)
    · have hbal0 : inv.amount ≤ balanceOf st.db.entries
          (inv.userID, AccountType.current) := hge
      have hents : (updateInvoice dbMid (settledInvoice env
          (stampedInvoice inv (withEntry (internalResponse inv B)
            (gateEntry inv st.db))))).entries
          = (st.db.entries ++ [gateEntry inv st.db]) ++ [recE] := rfl
      rw [hents] at hlt
      simp [balanceOf_append, balanceOf_singleton, balanceOf_cons,
        balanceOf_nil, entryDelta, hrecEdef,
        recipientEntry, gateEntry, payInvoiceEntry, accountFor, feeEntry,
        stampedInvoice, withEntry, internalResponse, responseFees,
        Ne.symm huser, huser] at hlt
      omega
    · simp [feeEntry, accountFor] at hc
  have hfeRun1 : HandleSuccessfulPayment env
      (stampedInvoice inv (withEntry (internalResponse inv B)
        (gateEntry inv st.db))) (gateEntry inv st.db)
      { st with db := dbMid }
      = (none, { st with db := feeDB }) :=
    HandleSuccessfulPayment_run_ok env _ _ _ hfeIns
  have hrun1 : PayInvoice env inv st
      = ((some (withEntry (internalResponse inv B) (gateEntry inv st.db)),
          none), stFin1) := by
    rw [payInvoice_routed_eq env inv st hge, if_pos hid, hrunISP1,
      settleRouted_ok_eq, hfeRun1]
  have hatom : balanceOf st.db.entries
      (accountFor AccountType.current inv.userID).id
      = currentUserBalance st.db inv.userID := rfl
  have hbal1 : currentUserBalance stFin1.db inv.userID
      = currentUserBalance st.db inv.userID - inv.amount := by
    show balanceOf (((st.db.entries ++ [gateEntry inv st.db]) ++ [recE])
        ++ [feeE]) (accountFor AccountType.current inv.userID).id
      = currentUserBalance st.db inv.userID - inv.amount
    rw [balanceOf_append, balanceOf_append, balanceOf_append,
      balanceOf_singleton, balanceOf_singleton, balanceOf_singleton]
    have d1 : entryDelta (accountFor AccountType.current inv.userID).id
        (gateEntry inv st.db) = -inv.amount := by
      simp [entryDelta, gateEntry, payInvoiceEntry, accountFor]
    have d2 : entryDelta (accountFor AccountType.current inv.userID).id
        recE = 0 := by
      simp [hrecEdef, entryDelta, recipientEntry, accountFor, huser]
    have d3 : entryDelta (accountFor AccountType.current inv.userID).id
        feeE = 0 := by
      simp [hfeeEdef, hsIdef, entryDelta, feeEntry, stampedInvoice, withEntry,
        internalResponse, responseFees, gateEntry, payInvoiceEntry, accountFor]
    rw [d1, d2, d3, hatom]
    ring
  have hge2 : inv.amount ≤ currentUserBalance stFin1.db inv.userID := by
    rw [hbal1]
    omega
  have hfind2 : findOpenIncoming (gateDB inv stFin1.db) inv.paymentRequest
      = none := by
    show ((st.db.invoices.map (fun r =>
        if r.id = (settledIncoming env B).id then settledIncoming env B
        else r)).map (fun r =>
        if r.id = (settledInvoice env (stampedInvoice inv (withEntry
          (internalResponse inv B) (gateEntry inv st.db)))).id then
          settledInvoice env (stampedInvoice inv (withEntry
            (internalResponse inv B) (gateEntry inv st.db)))
        else r)).find? (matchesOpenIncoming inv.paymentRequest) = none
    apply List.find?_eq_none.mpr
    intro r hr
    rcases List.mem_map.mp hr with ⟨r1, hr1, rfl⟩
    rcases List.mem_map.mp hr1 with ⟨r0, hr0, rfl⟩
    intro hmatch2
    by_cases h01 : r0.id = B.id
    · rw [if_pos (show r0.id = (settledIncoming env B).id from h01)]
        at hmatch2
      rw [if_neg (show ¬ ((settledIncoming env B).id
          = (settledInvoice env (stampedInvoice inv (withEntry
            (internalResponse inv B) (gateEntry inv st.db)))).id) from hBne)]
        at hmatch2
      simp [matchesOpenIncoming, settledIncoming] at hmatch2
    · rw [if_neg (show ¬ (r0.id = (settledIncoming env B).id) from h01)]
        at hmatch2
      by_cases h02 : r0.id = inv.id
      · rw [if_pos (show r0.id = (settledInvoice env (stampedInvoice inv
          (withEntry (internalResponse inv B) (gateEntry inv st.db)))).id
          from h02)] at hmatch2
        simp [matchesOpenIncoming, settledInvoice] at hmatch2
      · rw [if_neg (show ¬ (r0.id = (settledInvoice env (stampedInvoice inv
          (withEntry (internalResponse inv B) (gateEntry inv st.db)))).id)
          from h02)] at hmatch2
        exact h01 (by rw [huniq r0 hr0 hmatch2])
  have hrunISP2 : SendInternalPayment env inv
      { stFin1 with db := gateDB inv stFin1.db }
      = (.error Err.notFound, { stFin1 with db := gateDB inv stFin1.db }) := by
    simp only [SendInternalPayment, hfind2]
  have hrev2 : insertEntry ({ stFin1 with db := gateDB inv stFin1.db } : St).db
      (reversalEntry inv (gateEntry inv stFin1.db))
      = .ok ({ reversalEntry inv (gateEntry inv stFin1.db) with
               id := (gateDB inv stFin1.db).nextEntryId },
             revertedDB inv stFin1.db) :=
    reversal_insert_ok inv stFin1 hamt hge2
  have hrun2 : PayInvoice env inv stFin1
      = ((none, some Err.notFound),
         { stFin1 with
           db := updateInvoice (revertedDB inv stFin1.db) (erroredInvoice inv Err.notFound) }) := by
    rw [payInvoice_routed_eq env inv stFin1 hge2, if_pos hid, hrunISP2,
      settleRouted_error_eq,
      HandleFailedPayment_run inv (gateEntry inv stFin1.db) Err.notFound
        { stFin1 with db := gateDB inv stFin1.db } hrev2]
  have hbal2 : currentUserBalance (updateInvoice (revertedDB inv stFin1.db)
      (erroredInvoice inv Err.notFound)) inv.userID
      = currentUserBalance st.db inv.userID - inv.amount :=
    (reverted_balance inv stFin1.db Err.notFound).trans hbal1
  have hent : (updateInvoice (revertedDB inv stFin1.db)
      (erroredInvoice inv Err.notFound)).entries
      = stFin1.db.entries
        ++ [gateEntry inv stFin1.db,
            { reversalEntry inv (gateEntry inv stFin1.db) with
              id := (gateDB inv stFin1.db).nextEntryId }] := by
    show (stFin1.db.entries ++ [gateEntry inv stFin1.db])
        ++ [{ reversalEntry inv (gateEntry inv stFin1.db) with
              id := (gateDB inv stFin1.db).nextEntryId }]
      = _
    rw [List.append_assoc]
    rfl
  refine ⟨withEntry (internalResponse inv B) (gateEntry inv st.db), stFin1,
    hrun1, hbal1, ?_, ?_, ?_⟩
  · rw [hrun2]
  · rw [hrun2]
    exact hbal2
  · rw [hrun2]
    exact ⟨_, _, hent, rfl, rfl, rfl, rfl⟩

/-- Concrete instance of `PayInvoice_internal_idempotent` at the fixture
state: user 1 pays user 2's open invoice `invB`; the replay fails and the
balance drops only once. -/
theorem PayInvoice_internal_idempotent_witness :
    ∃ rp st1,
      PayInvoice envX invA stX = ((some rp, none), st1)
      ∧ currentUserBalance st1.db invA.userID
          = currentUserBalance stX.db invA.userID - invA.amount
      ∧ (PayInvoice envX invA st1).1 = (none, some Err.notFound)
      ∧ currentUserBalance (PayInvoice envX invA st1).2.db invA.userID
          = currentUserBalance stX.db invA.userID - invA.amount
      ∧ ∃ p rv, (PayInvoice envX invA st1).2.db.entries
          = st1.db.entries ++ [p, rv]
          ∧ rv.creditAccountID = p.debitAccountID
          ∧ rv.debitAccountID = p.creditAccountID
          ∧ p.amount = invA.amount ∧ rv.amount = invA.amount :=
  PayInvoice_internal_idempotent envX invA invB stX (by decide) (by decide)
    (by decide) (by decide) (by decide) (by decide) (by decide) (by decide)

end Lndhub